import Mathlib

/-!
Shallow embedding of the fintech reconciliation engine
(`app_completa/backend/app`): the V16 bank-statement CSP solver and
engine, the safe-peeling commit engine, and the three-phase
lexicographic MILP solver with its result extraction, together with
proofs of the specified invariants and counterexamples where the code
deviates from them.

Conventions: monetary amounts are `Int` cents, dates are `Int` day
numbers, similarity scores are `ℚ` (Python floats appear only in
scores).  Python dictionaries are modelled as association lists built
with `upsert` (first-insertion position, last value wins), matching
CPython semantics.  The external MILP backend (Gurobi) is modelled by
feasibility and optimality predicates over the exact constraint
systems the code builds; the external `rapidfuzz` similarity functions
are abstract parameters (`Fuzz`).
-/

namespace Recon

-- Rational arithmetic must evaluate inside `decide` proofs about
-- concrete runs; the library marks these operations irreducible for
-- elaboration performance only.
attribute [local semireducible] Rat.add Rat.mul Rat.sub Rat.inv

/-- `int()` applied to a rational in Python: truncation toward zero. -/
def pyInt (q : ℚ) : Int := q.num.tdiv (q.den : Int)

/-- Python-dict insertion into an association list: if the key is
present its value is replaced in place, otherwise the pair is appended
(CPython dicts keep first-insertion order and overwrite values). -/
def upsert {α β : Type} [DecidableEq α] (k : α) (v : β) : List (α × β) → List (α × β)
  | [] => [(k, v)]
  | (k', v') :: rest => if k' = k then (k', v) :: rest else (k', v') :: upsert k v rest

/-- `enums.CommitStatus`. -/
inductive CommitStatus where
  | shadow
  | soft
  | hard
  | pending
  | manual_review
deriving DecidableEq, Repr, Inhabited

/-- `enums.MetodoPago` (CFDI payment method). -/
inductive MetodoPago where
  | pue
  | ppd
deriving DecidableEq, Repr, Inhabited

/-- `enums.MatchConfidence`. -/
inductive MatchConfidence where
  | high
  | medium
  | low
  | ambiguous
deriving DecidableEq, Repr, Inhabited

/-- `enums.TransactionType`. -/
inductive TransactionType where
  | debit
  | credit
deriving DecidableEq, Repr, Inhabited

/-- `models.transaction.BankTransaction`, the fields touched by the
V16 engine and by the recurrence check (amounts in `Int` cents, dates
as `Int` day numbers, OCR confidence as `ℚ`). -/
structure BankTransaction where
  source_file : String := ""
  source_page : Option Int := none
  source_row : Option Int := none
  amount_cents : Int := 0
  transaction_type : TransactionType := .debit
  transaction_date : Option Int := none
  description : String := ""
  balance_before_cents : Option Int := none
  balance_after_cents : Option Int := none
  ocr_raw_text : String := ""
  ocr_confidence : ℚ := 1
  commit_status : CommitStatus := .pending
deriving DecidableEq, Repr, Inhabited

/-- `BankTransaction.passes_recurrence_check`:
`B_t = B_{t-1} + (credit − debit)`; `False` when a balance is missing. -/
def BankTransaction.passes_recurrence_check (t : BankTransaction) : Bool :=
  match t.balance_before_cents, t.balance_after_cents with
  | some before, some after =>
    let expected_change :=
      if t.transaction_type = TransactionType.debit then -t.amount_cents
      else t.amount_cents
    after - before = expected_change
  | _, _ => false

namespace V16

/-- `domain.IsomorphicVariant`: one hypothesis for a numeric token's
value (confidence/method fields carry no logic and are omitted). -/
structure IsomorphicVariant where
  value_cents : Int
  original_text : String
deriving DecidableEq, Repr

/-- `domain.TransactionBlock` before solving: the candidate variant
groups found in the block's vertical zone. -/
structure TransactionBlock where
  block_id : Int
  anchor_date : Int
  debit_candidates : List (List IsomorphicVariant) := []
  credit_candidates : List (List IsomorphicVariant) := []
  description_lines : List String := []
deriving DecidableEq, Repr

/-- The solver's per-block decision, `selected_debit` /
`selected_credit` / neither (noise). -/
inductive Choice where
  | debit (v : IsomorphicVariant)
  | credit (v : IsomorphicVariant)
  | noise
deriving DecidableEq, Repr

/-- Contribution of a block's decision to the running delta
(`-value` for a debit, `+value` for a credit, `0` for noise). -/
def Choice.deltaVal : Choice → Int
  | .debit v => -v.value_cents
  | .credit v => v.value_cents
  | .noise => 0

/-- Whether a choice is the null hypothesis (block treated as noise). -/
def Choice.isNoise : Choice → Bool
  | .noise => true
  | _ => false

/-- `solver.CSPSolver.solve`, precomputation: the block's maximal
absolute candidate value (`block_max`). -/
def blockMax (b : TransactionBlock) : Int :=
  ((b.debit_candidates ++ b.credit_candidates).flatten).foldl
    (fun m v => max m |v.value_cents|) 0

/-- `max_remaining_changes[i]`: suffix sums of `blockMax`. -/
def maxRemaining : List TransactionBlock → Int
  | [] => 0
  | b :: rest => maxRemaining rest + blockMax b

/-- Total delta of a selection. -/
def selDelta (sel : List Choice) : Int := (sel.map Choice.deltaVal).sum

/-- Sum of the selected credit values of a selection. -/
def creditSum (sel : List Choice) : Int :=
  (sel.map (fun c => match c with | .credit v => v.value_cents | _ => 0)).sum

/-- Sum of the selected debit values of a selection. -/
def debitSum (sel : List Choice) : Int :=
  (sel.map (fun c => match c with | .debit v => v.value_cents | _ => 0)).sum

/-- Number of null (noise) blocks in a selection. -/
def noiseCount (sel : List Choice) : Nat := (sel.filter Choice.isNoise).length

/-- Inner loop of `_recursive_solve` over one block's candidate
variants (`for variants_group in ...: for variant in ...`, flattened):
try each variant's delta contribution, recursing through `f` on the
remaining blocks, and return the first success. -/
def tryVariants (mk : IsomorphicVariant → Choice) (sign : Int)
    (f : Int → Option (List Choice)) (cur : Int) :
    List IsomorphicVariant → Option (List Choice)
  | [] => none
  | v :: vs =>
    match f (cur + sign * v.value_cents) with
    | some rest => some (mk v :: rest)
    | none => tryVariants mk sign f cur vs

/-- `solver.CSPSolver._recursive_solve`: depth-first search over the
blocks; per block it tries every debit variant, then every credit
variant, then the null hypothesis, pruning with `max_remaining_changes`,
and succeeds when the accumulated delta hits `target` within
`tolerance`.  Instead of mutating the blocks it returns the selection
left on them. -/
def recursiveSolve (target tolerance : Int) :
    List TransactionBlock → Int → Option (List Choice)
  | [] => fun cur => if |cur - target| ≤ tolerance then some [] else none
  | b :: rest =>
    let f := recursiveSolve target tolerance rest
    fun cur =>
      if |target - cur| > maxRemaining (b :: rest) + tolerance then none
      else
        match tryVariants Choice.debit (-1) f cur b.debit_candidates.flatten with
        | some sel => some sel
        | none =>
          match tryVariants Choice.credit 1 f cur b.credit_candidates.flatten with
          | some sel => some sel
          | none =>
            match f cur with
            | some sel => some (Choice.noise :: sel)
            | none => none

/-- `domain.ValidationContext`: the document's boundary balances. -/
structure ValidationContext where
  start_balance_cents : Int
  end_balance_cents : Int
deriving DecidableEq, Repr

/-- `solver.CSPSolver.solve`: target is `end − start`, the search
starts at index 0 with delta 0. -/
def cspSolve (tolerance : Int) (ctx : ValidationContext)
    (blocks : List TransactionBlock) : Option (List Choice) :=
  recursiveSolve (ctx.end_balance_cents - ctx.start_balance_cents) tolerance blocks 0

/-- `engine.V16BankParserEngine.__init__` instantiates
`CSPSolver(tolerance_cents=100)`. -/
def v16ToleranceCents : Int := 100

/-- The CSP solve as run by the V16 engine (tolerance 100 cents). -/
def v16Solve (ctx : ValidationContext) (blocks : List TransactionBlock) :
    Option (List Choice) :=
  cspSolve v16ToleranceCents ctx blocks

/-- A block admits a choice when the chosen variant is one of its
candidates (the null hypothesis is always available). -/
def ChoiceOfBlock (b : TransactionBlock) : Choice → Prop
  | .debit v => v ∈ b.debit_candidates.flatten
  | .credit v => v ∈ b.credit_candidates.flatten
  | .noise => True

instance (b : TransactionBlock) (c : Choice) : Decidable (ChoiceOfBlock b c) := by
  cases c <;> simp only [ChoiceOfBlock] <;> infer_instance

/-- A selection is drawn from the blocks' candidate lists (each
non-noise choice picks a variant of its block) and meets the balance
constraint within the tolerance: the assignments the CSP ranges over. -/
def ValidSelection (tolerance : Int) (ctx : ValidationContext)
    (blocks : List TransactionBlock) (sel : List Choice) : Prop :=
  sel.length = blocks.length ∧
  (∀ p ∈ blocks.zip sel, ChoiceOfBlock p.1 p.2) ∧
  |ctx.start_balance_cents + selDelta sel - ctx.end_balance_cents| ≤ tolerance

instance (tolerance : Int) (ctx : ValidationContext)
    (blocks : List TransactionBlock) (sel : List Choice) :
    Decidable (ValidSelection tolerance ctx blocks sel) := by
  unfold ValidSelection; infer_instance

instance (tolerance : Int) (ctx : ValidationContext)
    (blocks : List TransactionBlock) (sel : List Choice) :
    Decidable (ValidSelection tolerance ctx blocks sel) := by
  unfold ValidSelection; infer_instance

/-- `" ".join(block.description_lines).strip()` with the engine's
fallback text for an empty result. -/
def blockDescription (b : TransactionBlock) : String :=
  let desc := (String.intercalate " " b.description_lines).trim
  if desc = "" then "DESCRIPCION NO LEIDA" else desc

/-- Loop body of `engine._blocks_to_transactions`, over the solved
blocks paired with their selections, threading `current_balance`. -/
def blocksToTransactionsGo (source_file : String) :
    List (TransactionBlock × Choice) → Int → List BankTransaction
  | [], _ => []
  | (b, ch) :: rest, current_balance =>
    match ch with
    | Choice.noise => blocksToTransactionsGo source_file rest current_balance
    | Choice.debit v =>
      let new_balance := current_balance - v.value_cents
      { source_file := source_file
        source_page := some 1
        source_row := some b.block_id
        amount_cents := v.value_cents
        transaction_type := TransactionType.debit
        transaction_date := some b.anchor_date
        description := blockDescription b
        balance_before_cents := some (new_balance + v.value_cents)
        balance_after_cents := some new_balance
        ocr_raw_text := v.original_text
        ocr_confidence := 99 / 100
        commit_status := CommitStatus.pending } ::
      blocksToTransactionsGo source_file rest new_balance
    | Choice.credit v =>
      let new_balance := current_balance + v.value_cents
      { source_file := source_file
        source_page := some 1
        source_row := some b.block_id
        amount_cents := v.value_cents
        transaction_type := TransactionType.credit
        transaction_date := some b.anchor_date
        description := blockDescription b
        balance_before_cents := some (new_balance - v.value_cents)
        balance_after_cents := some new_balance
        ocr_raw_text := v.original_text
        ocr_confidence := 99 / 100
        commit_status := CommitStatus.pending } ::
      blocksToTransactionsGo source_file rest new_balance

/-- `engine.V16BankParserEngine._blocks_to_transactions`: emit a
`BankTransaction` for every non-noise block, accumulating the running
balance from `start_balance`; `balance_before_cents` is fixed up from
`balance_after_cents` and the amount, exactly as in the source. -/
def blocksToTransactions (blocks : List TransactionBlock) (sel : List Choice)
    (start_balance : Int) (source_file : String) : List BankTransaction :=
  blocksToTransactionsGo source_file (blocks.zip sel) start_balance

/-- Signed amount of an emitted transaction (credit positive). -/
def signedAmount (t : BankTransaction) : Int :=
  if t.transaction_type = TransactionType.credit then t.amount_cents
  else -t.amount_cents

end V16

/-- `models.transaction.Transaction`, the fields the reconciliation
stages read (amounts in `Int` cents, dates as `Int` day numbers). -/
structure Txn where
  id : String
  external_id : Option String := none
  amount_cents : Int := 0
  transaction_type : TransactionType := TransactionType.debit
  transaction_date : Option Int := none
  counterparty_name : Option String := none
  counterparty_rfc : Option String := none
  description : String := ""
  reference : Option String := none
  metodo_pago : Option MetodoPago := none
deriving DecidableEq, Repr

/-- `config.Settings`, the keys the reconciliation core reads, with
the source defaults (floats as `ℚ`). -/
structure Settings where
  buffer_days : Int := 5
  hard_commit_threshold_days : Int := -2
  uniqueness_window_days : Int := 2
  text_similarity_threshold : ℚ := 7 / 10
  max_abs_delta_cents : Int := 50
  rel_delta_ratio : ℚ := 1 / 1000
  fixed_gap_threshold_cents : Int := 100
  causality_buffer_days : Int := 3
  rescue_semantic_threshold : ℚ := 4 / 5
deriving DecidableEq, Repr

/-- The source defaults of `config.Settings`. -/
def defaultSettings : Settings := {}

/-- `Settings.calculate_allowed_delta`:
`min(max_abs_delta_cents, int(total_payment_cents * rel_delta_ratio))`. -/
def Settings.calculate_allowed_delta (s : Settings) (total_payment_cents : Int) : Int :=
  min s.max_abs_delta_cents (pyInt (total_payment_cents * s.rel_delta_ratio))

/-- `models.transaction.TransactionMatch`, the fields the solver and
clustering read (a candidate edge with its combined score). -/
structure TransactionMatch where
  invoice_id : String
  payment_id : String
  combined_score : ℚ := 0
deriving DecidableEq, Repr

/-- `clustering.Cluster`. -/
structure Cluster where
  id : String
  invoices : List Txn := []
  payments : List Txn := []
  edges : List TransactionMatch := []
  total_invoice_cents : Int := 0
  total_payment_cents : Int := 0
deriving DecidableEq, Repr

/-- `models.reconciliation.MatchedPair`, the fields the pipeline
computes (audit timestamps and uuids omitted). -/
structure MatchedPair where
  invoice_ids : List String := []
  payment_ids : List String := []
  total_invoice_cents : Int := 0
  total_payment_cents : Int := 0
  gap_cents : Int := 0
  semantic_score : ℚ := 0
  confidence : MatchConfidence := MatchConfidence.medium
  commit_status : CommitStatus := CommitStatus.soft
  matched_by : String := "system"
  match_reason : String := ""
deriving DecidableEq, Repr, Inhabited

/-- `models.reconciliation.PartialMatch`. -/
structure PartialMatch where
  invoice_id : String := ""
  payment_ids : List String := []
  invoice_amount_cents : Int := 0
  paid_amount_cents : Int := 0
  remainder_cents : Int := 0
  semantic_score : ℚ := 0
  confidence : MatchConfidence := MatchConfidence.medium
  partial_expected : Bool := false
deriving DecidableEq, Repr, Inhabited

/-- `{inv.id: inv for inv in …}` — a Python dict keyed by id. -/
def buildIdMap (txns : List Txn) : List (String × Txn) :=
  txns.foldl (fun m t => upsert t.id t m) []

/-- `{(e.invoice_id, e.payment_id): e.combined_score for e in cluster.edges}`. -/
def buildEdgeWeights (edges : List TransactionMatch) : List ((String × String) × ℚ) :=
  edges.foldl (fun m e => upsert (e.invoice_id, e.payment_id) e.combined_score m) []

/-- An assignment of the MILP decision variables: `x_i`, `y_j`, `r_i`,
`z_ij`, `gamma_pos`, `gamma_neg`, `delta` (`solver.LexicographicMILPSolver`,
phases 1–3; phases 1 and 2 ignore `z`). -/
structure MilpSol where
  x : String → Bool
  y : String → Bool
  r : String → Int
  z : String → String → Bool
  gamma_pos : Int := 0
  gamma_neg : Int := 0
  delta : Int := 0

/-- The all-zero assignment (select nothing). -/
def zeroSol : MilpSol :=
  { x := fun _ => false, y := fun _ => false, r := fun _ => 0, z := fun _ _ => false }

/-- `lpSum(x[i] * inv.amount_cents - r[i] for i in inv_map)`. -/
def invoiceSum (invMap : List (String × Txn)) (S : MilpSol) : Int :=
  (invMap.map (fun p => (if S.x p.1 then p.2.amount_cents else 0) - S.r p.1)).sum

/-- `lpSum(y[j] * pay.amount_cents for j in pay_map)`. -/
def paymentSum (payMap : List (String × Txn)) (S : MilpSol) : Int :=
  (payMap.map (fun p => if S.y p.1 then p.2.amount_cents else 0)).sum

/-- The causality cut `x_i + y_j ≤ 1` is generated for `(i, j)` iff
both dates are set and `pay.date < inv.date − causality_buffer_days`. -/
def causallyInvalid (s : Settings) (inv pay : Txn) : Bool :=
  match inv.transaction_date, pay.transaction_date with
  | some di, some dp => dp < di - s.causality_buffer_days
  | _, _ => false

/-- The constraint system shared by all three phases: variable bounds
(`r_i ∈ [0, a_i]`, `γ± ∈ [0, fixed_gap_threshold_cents]`,
`δ ∈ [0, max_delta]`), the balance equation, the remainder linking
`r_i ≤ x_i·a_i`, and the causality cuts. -/
def BaseFeasible (s : Settings) (maxDelta : Int)
    (invMap payMap : List (String × Txn)) (S : MilpSol) : Prop :=
  (∀ p ∈ invMap, 0 ≤ S.r p.1 ∧ S.r p.1 ≤ p.2.amount_cents) ∧
  (0 ≤ S.gamma_pos ∧ S.gamma_pos ≤ s.fixed_gap_threshold_cents) ∧
  (0 ≤ S.gamma_neg ∧ S.gamma_neg ≤ s.fixed_gap_threshold_cents) ∧
  (0 ≤ S.delta ∧ S.delta ≤ maxDelta) ∧
  invoiceSum invMap S - paymentSum payMap S + S.gamma_pos - S.gamma_neg + S.delta = 0 ∧
  (∀ p ∈ invMap, S.r p.1 ≤ (if S.x p.1 then p.2.amount_cents else 0)) ∧
  (∀ ip ∈ invMap, ∀ pp ∈ payMap,
    causallyInvalid s ip.2 pp.2 = true → ¬(S.x ip.1 = true ∧ S.y pp.1 = true))

instance (s : Settings) (maxDelta : Int) (invMap payMap : List (String × Txn))
    (S : MilpSol) : Decidable (BaseFeasible s maxDelta invMap payMap S) := by
  unfold BaseFeasible; infer_instance

/-- The phase-1 objective `delta + gamma_pos + gamma_neg`. -/
def errVal (S : MilpSol) : Int := S.delta + S.gamma_pos + S.gamma_neg

/-- The phase-2 objective `lpSum(x.values())`: number of selected
invoices. -/
def cardVal (invMap : List (String × Txn)) (S : MilpSol) : Int :=
  (invMap.map (fun p => if S.x p.1 then (1 : Int) else 0)).sum

/-- The phase-3 objective
`lpSum(z[(i,j)] * int(w * 1000) for ((i,j), w) in edge_weights)`. -/
def scoreVal (edgeWeights : List ((String × String) × ℚ)) (S : MilpSol) : Int :=
  (edgeWeights.map (fun e =>
    if S.z e.1.1 e.1.2 then pyInt (e.2 * 1000) else 0)).sum

/-- An optimal solution of phase 1 (`_solve_phase1`): feasible and of
minimal `delta + gamma_pos + gamma_neg`. -/
def Phase1Optimal (s : Settings) (maxDelta : Int)
    (invMap payMap : List (String × Txn)) (S : MilpSol) : Prop :=
  BaseFeasible s maxDelta invMap payMap S ∧
  ∀ S', BaseFeasible s maxDelta invMap payMap S' → errVal S ≤ errVal S'

/-- Feasibility for phase 2 (`_solve_phase2`): the base constraints
plus the phase-1 bound `delta + γ⁺ + γ⁻ ≤ fixed_delta + |fixed_gamma| + 1`. -/
def Phase2Feasible (s : Settings) (maxDelta : Int)
    (invMap payMap : List (String × Txn)) (fixedDelta fixedGamma : Int)
    (S : MilpSol) : Prop :=
  BaseFeasible s maxDelta invMap payMap S ∧
  errVal S ≤ fixedDelta + |fixedGamma| + 1

instance (s : Settings) (maxDelta : Int) (invMap payMap : List (String × Txn))
    (fixedDelta fixedGamma : Int) (S : MilpSol) :
    Decidable (Phase2Feasible s maxDelta invMap payMap fixedDelta fixedGamma S) := by
  unfold Phase2Feasible; infer_instance

/-- An optimal solution of phase 2: feasible and of minimal invoice
cardinality. -/
def Phase2Optimal (s : Settings) (maxDelta : Int)
    (invMap payMap : List (String × Txn)) (fixedDelta fixedGamma : Int)
    (S : MilpSol) : Prop :=
  Phase2Feasible s maxDelta invMap payMap fixedDelta fixedGamma S ∧
  ∀ S', Phase2Feasible s maxDelta invMap payMap fixedDelta fixedGamma S' →
    cardVal invMap S ≤ cardVal invMap S'

/-- The phase-2 bound added in phase 3 when phase 2 produced a
cardinality (`if max_cardinality is not None`):
`Σ x_i ≤ max_cardinality + 1`. -/
def cardinalityBound (invMap : List (String × Txn)) (S : MilpSol) :
    Option Int → Prop
  | some c => cardVal invMap S ≤ c + 1
  | none => True

instance (invMap : List (String × Txn)) (S : MilpSol) :
    (mc : Option Int) → Decidable (cardinalityBound invMap S mc)
  | some _ => Int.decLe _ _
  | none => inferInstanceAs (Decidable True)

/-- Feasibility for phase 3 (`_solve_phase3`): base constraints, the
linking `z_ij ≤ x_i`, `z_ij ≤ y_j` for each candidate edge, the
phase-1 bound, and — when phase 2 produced a cardinality — the phase-2
bound `Σ x_i ≤ max_cardinality + 1`. -/
def Phase3Feasible (s : Settings) (maxDelta : Int)
    (invMap payMap : List (String × Txn))
    (edgeWeights : List ((String × String) × ℚ))
    (fixedDelta fixedGamma : Int) (maxCardinality : Option Int)
    (S : MilpSol) : Prop :=
  BaseFeasible s maxDelta invMap payMap S ∧
  (∀ e ∈ edgeWeights, S.z e.1.1 e.1.2 = true →
    S.x e.1.1 = true ∧ S.y e.1.2 = true) ∧
  errVal S ≤ fixedDelta + |fixedGamma| + 1 ∧
  cardinalityBound invMap S maxCardinality

instance (s : Settings) (maxDelta : Int) (invMap payMap : List (String × Txn))
    (edgeWeights : List ((String × String) × ℚ)) (fixedDelta fixedGamma : Int)
    (maxCardinality : Option Int) (S : MilpSol) :
    Decidable (Phase3Feasible s maxDelta invMap payMap edgeWeights fixedDelta
      fixedGamma maxCardinality S) := by
  unfold Phase3Feasible; infer_instance

/-- An optimal solution of phase 3: feasible and of maximal scaled
semantic score. -/
def Phase3Optimal (s : Settings) (maxDelta : Int)
    (invMap payMap : List (String × Txn))
    (edgeWeights : List ((String × String) × ℚ))
    (fixedDelta fixedGamma : Int) (maxCardinality : Option Int)
    (S : MilpSol) : Prop :=
  Phase3Feasible s maxDelta invMap payMap edgeWeights fixedDelta fixedGamma
    maxCardinality S ∧
  ∀ S', Phase3Feasible s maxDelta invMap payMap edgeWeights fixedDelta fixedGamma
    maxCardinality S' → scoreVal edgeWeights S' ≤ scoreVal edgeWeights S

/-- `max_delta` as computed at the top of `solve_cluster`:
`calculate_allowed_delta(sum(p.amount_cents for p in cluster.payments))`. -/
def clusterMaxDelta (s : Settings) (c : Cluster) : Int :=
  s.calculate_allowed_delta ((c.payments.map Txn.amount_cents).sum)

/-- The `"gamma"` entry of a phase's result dict:
`int(value(gamma_pos) - value(gamma_neg)) if value(gamma_pos) else 0` —
sign quirk included (a pure `gamma_neg` solution is recorded as 0). -/
def phaseGammaOut (S : MilpSol) : Int :=
  if S.gamma_pos ≠ 0 then S.gamma_pos - S.gamma_neg else 0

/-- The dict `_solve_phase1` / `_solve_phase2` return: `delta`,
`gamma`, the keys of the filtered `x`/`y`/`r` dicts, and (phase 2
only) the cardinality. -/
structure PhaseVals where
  delta : Int := 0
  gamma : Int := 0
  xs : List String := []
  ys : List String := []
  rs : List (String × Int) := []
  cardinality : Option Int := none

/-- Build a phase's result dict from an assignment of the variables
(the comprehensions filter out falsy values). -/
def phaseOut (invMap payMap : List (String × Txn)) (withCard : Bool)
    (S : MilpSol) : PhaseVals :=
  { delta := S.delta
    gamma := phaseGammaOut S
    xs := (invMap.filter (fun p => S.x p.1)).map Prod.fst
    ys := (payMap.filter (fun p => S.y p.1)).map Prod.fst
    rs := (invMap.filter (fun p => decide (S.r p.1 ≠ 0))).map (fun p => (p.1, S.r p.1))
    cardinality := if withCard then some (cardVal invMap S) else none }

/-- `solver.SolverSolution`, the fields the downstream pipeline reads. -/
structure SolverSolution where
  selected_invoices : List String := []
  selected_payments : List String := []
  «matches» : List (String × String) := []
  remainders : List (String × Int) := []
  delta_cents : Int := 0
  gamma_cents : Int := 0
  semantic_score : ℚ := 0
  cardinality : Int := 0

/-- `sum(solution.remainders.values())`. -/
def sumRemainders (sol : SolverSolution) : Int := (sol.remainders.map Prod.snd).sum

/-- Solution extraction at the end of `_solve_phase3`: selected sets,
positive remainders, residuals (with the `gamma` sign quirk), then
`matches[inv_id] = pay_id` and `semantic_score += w` for every edge
whose `z` is set — iterating the `z` dict in edge insertion order. -/
def solutionOfPhase3 (invMap payMap : List (String × Txn))
    (edgeWeights : List ((String × String) × ℚ)) (S : MilpSol) : SolverSolution :=
  let base : SolverSolution :=
    { selected_invoices := (invMap.filter (fun p => S.x p.1)).map Prod.fst
      selected_payments := (payMap.filter (fun p => S.y p.1)).map Prod.fst
      remainders := (invMap.filter (fun p => decide (0 < S.r p.1))).map
        (fun p => (p.1, S.r p.1))
      delta_cents := S.delta
      gamma_cents := phaseGammaOut S
      cardinality := cardVal invMap S }
  edgeWeights.foldl (fun sol e =>
    if S.z e.1.1 e.1.2 then
      { sol with «matches» := upsert e.1.1 e.1.2 sol.«matches»
                 semantic_score := sol.semantic_score + e.2 }
    else sol) base

/-- `solver._extract_solution_from_phase2`: selections from the phase-2
dict, then the greedy matching heuristic over the cluster's edge list —
it checks that the invoice is not matched yet but never that the
payment is. -/
def extractSolutionFromPhase2 (pv : PhaseVals) (cluster : Cluster) : SolverSolution :=
  let base : SolverSolution :=
    { selected_invoices := pv.xs
      selected_payments := pv.ys
      remainders := pv.rs.filter (fun p => decide (0 < p.2))
      delta_cents := pv.delta
      gamma_cents := pv.gamma
      cardinality := pv.cardinality.getD 0 }
  cluster.edges.foldl (fun sol e =>
    if e.invoice_id ∈ sol.selected_invoices ∧ e.payment_id ∈ sol.selected_payments ∧
        (sol.«matches».lookup e.invoice_id) = none then
      { sol with «matches» := upsert e.invoice_id e.payment_id sol.«matches»
                 semantic_score := sol.semantic_score + e.combined_score }
    else sol) base

/-- `solver.SolverResult`, the fields the orchestrator reads. -/
structure SolverResult where
  cluster_id : String := ""
  solution : Option SolverSolution := none
  matched_pairs : List MatchedPair := []
  partial_matches : List PartialMatch := []
  unmatched_invoices : List String := []
  unmatched_payments : List String := []
  needs_rescue : Bool := false

/-- Loop body of `_solution_to_result` over `solution.matches.items()`,
threading the emitted pairs/partials and the used-id sets. -/
def solutionToResultGo (s : Settings) (sol : SolverSolution)
    (invMap payMap : List (String × Txn)) :
    List (String × String) → List MatchedPair → List PartialMatch →
    List String → List String →
    List MatchedPair × List PartialMatch × List String × List String
  | [], pairs, partials, usedI, usedP => (pairs, partials, usedI, usedP)
  | (inv_id, pay_id) :: rest, pairs, partials, usedI, usedP =>
    match invMap.lookup inv_id with
    | none => solutionToResultGo s sol invMap payMap rest pairs partials usedI usedP
    | some inv =>
      match payMap.lookup pay_id with
      | none => solutionToResultGo s sol invMap payMap rest pairs partials usedI usedP
      | some pay =>
        let usedI := usedI ++ [inv_id]
        let usedP := usedP ++ [pay_id]
        let remainder := (sol.remainders.lookup inv_id).getD 0
        let conv : Int × Int :=
          if 0 < remainder ∧ remainder ≤ s.max_abs_delta_cents then (0, remainder)
          else (remainder, sol.gamma_cents)
        if 0 < conv.1 then
          let partial_match : PartialMatch :=
            { invoice_id := inv_id
              payment_ids := [pay_id]
              invoice_amount_cents := inv.amount_cents
              paid_amount_cents := inv.amount_cents - conv.1
              remainder_cents := conv.1
              partial_expected := decide (inv.metodo_pago = some MetodoPago.ppd)
              confidence := MatchConfidence.medium }
          solutionToResultGo s sol invMap payMap rest pairs
            (partials ++ [partial_match]) usedI usedP
        else
          let pair : MatchedPair :=
            { invoice_ids := [inv_id]
              payment_ids := [pay_id]
              total_invoice_cents := inv.amount_cents
              total_payment_cents := pay.amount_cents
              gap_cents := conv.2
              confidence := MatchConfidence.medium
              commit_status := CommitStatus.soft
              matched_by := "milp_solver" }
          solutionToResultGo s sol invMap payMap rest (pairs ++ [pair])
            partials usedI usedP

/-- `solver._solution_to_result`: emit a `MatchedPair` or a
`PartialMatch` per entry of `solution.matches` (a remainder within
`max_abs_delta_cents` is converted into the pair's gap, otherwise the
pair's gap is the cluster-wide `gamma_cents`), then list the unmatched
ids. -/
def solutionToResult (s : Settings) (cluster_id : String) (sol : SolverSolution)
    (invMap payMap : List (String × Txn)) : SolverResult :=
  let res := solutionToResultGo s sol invMap payMap sol.«matches» [] [] [] []
  { cluster_id := cluster_id
    solution := some sol
    matched_pairs := res.1
    partial_matches := res.2.1
    unmatched_invoices := (invMap.filter (fun p => decide (p.1 ∉ res.2.2.1))).map Prod.fst
    unmatched_payments := (payMap.filter (fun p => decide (p.1 ∉ res.2.2.2))).map Prod.fst }

/-- The rescue trigger at the end of `solve_cluster`:
`delta > 0 and sum(remainders) == 0 and semantic_score < rescue_semantic_threshold`
— the TOTAL semantic score, not a per-match average. -/
def needsRescueFlag (s : Settings) (sol : SolverSolution) : Bool :=
  decide (0 < sol.delta_cents) && decide (sumRemainders sol = 0) &&
    decide (sol.semantic_score < s.rescue_semantic_threshold)

/-- The solution `solve_cluster` adopts, given the outcomes of the
three phases (`none` models a failed/timed-out phase, which the code
recovers from): phase 3's extraction when available, otherwise the
greedy fallback over phase 2's dict (which is phase 1's dict when
phase 2 failed). -/
def adoptedSolution (cluster : Cluster) (S1 : MilpSol)
    (phase2 phase3 : Option MilpSol) : SolverSolution :=
  let invMap := buildIdMap cluster.invoices
  let payMap := buildIdMap cluster.payments
  let edgeWeights := buildEdgeWeights cluster.edges
  let p1 := phaseOut invMap payMap false S1
  let p2 := match phase2 with
    | some S2 => phaseOut invMap payMap true S2
    | none => p1
  match phase3 with
  | some S3 => solutionOfPhase3 invMap payMap edgeWeights S3
  | none => extractSolutionFromPhase2 p2 cluster

/-- `solver.LexicographicMILPSolver.solve_cluster` as a function of the
phase outcomes: a failed phase 1 returns everything unmatched with
`needs_rescue` set; otherwise the adopted solution is converted to a
result and the rescue flag computed. -/
def solveCluster (s : Settings) (cluster : Cluster)
    (phase1 phase2 phase3 : Option MilpSol) : SolverResult :=
  match phase1 with
  | none =>
    { cluster_id := cluster.id
      solution := none
      unmatched_invoices := cluster.invoices.map Txn.id
      unmatched_payments := cluster.payments.map Txn.id
      needs_rescue := true }
  | some S1 =>
    let invMap := buildIdMap cluster.invoices
    let payMap := buildIdMap cluster.payments
    let sol := adoptedSolution cluster S1 phase2 phase3
    let res := solutionToResult s cluster.id sol invMap payMap
    { res with needs_rescue := needsRescueFlag s sol }

/-- The final result's match lists (`orchestrator.run`, result
aggregation): safe-peeling pairs, then the pairs and partials of every
cluster result that did not need rescue, then those of the rescue
loop's results — plain concatenation, no deduplication. -/
structure FinalResult where
  matched_pairs : List MatchedPair := []
  partial_matches : List PartialMatch := []

/-- `orchestrator.run` lines 158–189 as a function of the stage
outputs. -/
def runAggregate (peel : List MatchedPair)
    (clusterResults rescueResults : List SolverResult) : FinalResult :=
  let ok := clusterResults.filter (fun r => !r.needs_rescue)
  { matched_pairs :=
      peel ++ (ok.map SolverResult.matched_pairs).flatten ++
        (rescueResults.map SolverResult.matched_pairs).flatten
    partial_matches :=
      (ok.map SolverResult.partial_matches).flatten ++
        (rescueResults.map SolverResult.partial_matches).flatten }

/-- The external `rapidfuzz.fuzz` similarity capability used by
`safe_peeling` (an out-of-scope collaborator): both functions return a
score on the 0–100 scale. -/
structure Fuzz where
  token_sort_ratio : String → String → ℚ
  token_set_ratio : String → String → ℚ

/-- Python truthiness of an optional string (`None` and `""` are
falsy). -/
def truthy : Option String → Bool
  | none => false
  | some s => s != ""

/-- `safe_peeling.SafePeelingEngine._calculate_text_similarity`:
token-sort ratio over lowercased names, token-set ratio over
lowercased descriptions, exact match on uppercased RFCs; the average
of the available scores, `0.0` when none is available. -/
def calculateTextSimilarity (fz : Fuzz) (invoice payment : Txn) : ℚ :=
  let scores : List ℚ :=
    (if truthy invoice.counterparty_name && truthy payment.counterparty_name then
      [fz.token_sort_ratio (invoice.counterparty_name.getD "").toLower
        (payment.counterparty_name.getD "").toLower / 100]
     else []) ++
    (if invoice.description != "" && payment.description != "" then
      [fz.token_set_ratio invoice.description.toLower payment.description.toLower / 100]
     else []) ++
    (if truthy invoice.counterparty_rfc && truthy payment.counterparty_rfc then
      [if (invoice.counterparty_rfc.getD "").toUpper =
          (payment.counterparty_rfc.getD "").toUpper then (1 : ℚ) else 0]
     else [])
  if scores = [] then 0 else scores.sum / (scores.length : ℚ)

/-- `safe_peeling._days_between`: `abs` of the day difference, `0`
when either date is missing. -/
def daysBetween (t1 t2 : Txn) : Int :=
  match t1.transaction_date, t2.transaction_date with
  | some d1, some d2 => |d1 - d2|
  | _, _ => 0

/-- `safe_peeling.CandidateMatch`. -/
structure CandidateMatch where
  invoice : Txn
  payment : Txn
  amount_match : Bool
  reference_match : Bool
  text_similarity : ℚ
  days_apart : Int
  is_unique_amount : Bool
deriving DecidableEq, Repr

/-- `safe_peeling._build_reference_index`: a dict keyed by the
lowercased `external_id` and `reference` of each transaction that has
one (later transactions overwrite earlier keys). -/
def buildReferenceIndex (transactions : List Txn) : List (String × Txn) :=
  transactions.foldl (fun index t =>
    let index :=
      match t.external_id with
      | some e => if e ≠ "" then upsert e.toLower t index else index
      | none => index
    match t.reference with
    | some r => if r ≠ "" then upsert r.toLower t index else index
    | none => index) []

/-- Lookup in `safe_peeling._build_amount_index`'s dict of lists: the
transactions with the given amount, in insertion order. -/
def amountIndexLookup (transactions : List Txn) (amount : Int) : List Txn :=
  transactions.filter (fun t => decide (t.amount_cents = amount))

/-- Whether a transaction falls in the uniqueness window
`[T − uniqueness_window, T + buffer_days + uniqueness_window]` with the
given amount (dateless transactions are skipped). -/
def inUniquenessWindow (s : Settings) (reference_date amount : Int) (t : Txn) : Bool :=
  match t.transaction_date with
  | some d =>
    decide (reference_date - s.uniqueness_window_days ≤ d) &&
      decide (d ≤ reference_date + s.buffer_days + s.uniqueness_window_days) &&
      decide (t.amount_cents = amount)
  | none => false

/-- `safe_peeling._count_amounts_in_window` read at one amount:
the number of transactions with that amount dated inside the window. -/
def countAmountsInWindow (s : Settings) (transactions : List Txn)
    (reference_date amount : Int) : Nat :=
  (transactions.filter (inUniquenessWindow s reference_date amount)).length

/-- Inner loop of `_try_reference_match` over `refs_to_try`. -/
def tryReferenceMatchGo (invoice : Txn) (payment_index : List (String × Txn))
    (matched_ids : List String) : List String → Option CandidateMatch
  | [] => none
  | ref :: rest =>
    match payment_index.lookup ref with
    | some payment =>
      if payment.id ∉ matched_ids ∧ payment.amount_cents = invoice.amount_cents then
        some { invoice := invoice
               payment := payment
               amount_match := true
               reference_match := true
               text_similarity := 1
               days_apart := daysBetween invoice payment
               is_unique_amount := false }
      else tryReferenceMatchGo invoice payment_index matched_ids rest
    | none => tryReferenceMatchGo invoice payment_index matched_ids rest

/-- `safe_peeling._try_reference_match`: try the invoice's lowercased
`external_id` then `reference` against the payment reference index;
accept an unused payment with exactly matching amount. -/
def tryReferenceMatch (invoice : Txn) (payment_index : List (String × Txn))
    (matched_ids : List String) : Option CandidateMatch :=
  let refs_to_try :=
    (match invoice.external_id with
     | some e => if e ≠ "" then [e.toLower] else []
     | none => []) ++
    (match invoice.reference with
     | some r => if r ≠ "" then [r.toLower] else []
     | none => [])
  tryReferenceMatchGo invoice payment_index matched_ids refs_to_try

/-- `safe_peeling._try_unique_amount_match`: require the amount to
occur exactly twice in the window, a single unused candidate payment
with that amount, and a text similarity not below the threshold
(`if text_sim < self.text_threshold: return None`). -/
def tryUniqueAmountMatch (fz : Fuzz) (s : Settings) (invoice : Txn)
    (payments : List Txn) (amount_counts : Int → Nat)
    (matched_ids : List String) : Option CandidateMatch :=
  let amount := invoice.amount_cents
  if amount_counts amount ≠ 2 then none
  else
    match (amountIndexLookup payments amount).filter
        (fun c => decide (c.id ∉ matched_ids)) with
    | [payment] =>
      let text_sim := calculateTextSimilarity fz invoice payment
      if text_sim < s.text_similarity_threshold then none
      else
        some { invoice := invoice
               payment := payment
               amount_match := true
               reference_match := false
               text_similarity := text_sim
               days_apart := daysBetween invoice payment
               is_unique_amount := true }
    | _ => none

/-- `safe_peeling._determine_commit_status`: SHADOW past the reference
date, SOFT in `(T + hard_threshold, T]`, HARD at or before
`T + hard_threshold`; SOFT when both dates are unknown. -/
def determineCommitStatus (s : Settings) (invoice payment : Txn)
    (reference_date : Int) : CommitStatus :=
  let hard_cutoff := reference_date + s.hard_commit_threshold_days
  let dates := invoice.transaction_date.toList ++ payment.transaction_date.toList
  match dates.max? with
  | none => CommitStatus.soft
  | some latest_date =>
    if latest_date > reference_date then CommitStatus.shadow
    else if latest_date > hard_cutoff then CommitStatus.soft
    else CommitStatus.hard

/-- `safe_peeling._build_match_reason`. -/
def buildMatchReason (m : CandidateMatch) : String :=
  String.intercalate ", "
    ((if m.reference_match then ["reference_id_match"] else []) ++
     (if m.amount_match then ["exact_amount"] else []) ++
     (if m.is_unique_amount then ["unique_in_window"] else []) ++
     (if (8 : ℚ) / 10 ≤ m.text_similarity then ["high_text_similarity"] else []))

/-- The `MatchedPair` built in `SafePeelingEngine.process` for an
accepted candidate. -/
def peelPair (s : Settings) (invoice : Txn) (c : CandidateMatch)
    (reference_date : Int) : MatchedPair :=
  { invoice_ids := [invoice.id]
    payment_ids := [c.payment.id]
    total_invoice_cents := invoice.amount_cents
    total_payment_cents := c.payment.amount_cents
    gap_cents := invoice.amount_cents - c.payment.amount_cents
    semantic_score := c.text_similarity
    confidence := if c.reference_match then MatchConfidence.high
      else MatchConfidence.medium
    commit_status := determineCommitStatus s invoice c.payment reference_date
    matched_by := "safe_peeling"
    match_reason := buildMatchReason c }

/-- The per-invoice loop of `SafePeelingEngine.process`, threading the
emitted pairs and the matched-id sets. -/
def safePeelGo (fz : Fuzz) (s : Settings) (payments : List Txn)
    (payment_by_reference : List (String × Txn)) (amount_counts : Int → Nat)
    (reference_date : Int) :
    List Txn → List MatchedPair → List String → List String →
    List MatchedPair × List String × List String
  | [], pairs, matchedInv, matchedPay => (pairs, matchedInv, matchedPay)
  | invoice :: rest, pairs, matchedInv, matchedPay =>
    if invoice.id ∈ matchedInv then
      safePeelGo fz s payments payment_by_reference amount_counts reference_date
        rest pairs matchedInv matchedPay
    else
      let m1 := tryReferenceMatch invoice payment_by_reference matchedPay
      let m := match m1 with
        | some c => some c
        | none => tryUniqueAmountMatch fz s invoice payments amount_counts matchedPay
      match m with
      | none =>
        safePeelGo fz s payments payment_by_reference amount_counts reference_date
          rest pairs matchedInv matchedPay
      | some c =>
        safePeelGo fz s payments payment_by_reference amount_counts reference_date
          rest (pairs ++ [peelPair s invoice c reference_date])
          (matchedInv ++ [invoice.id]) (matchedPay ++ [c.payment.id])

/-- `safe_peeling.PeelingResult` (audit entries and stats omitted). -/
structure PeelingResult where
  matched_pairs : List MatchedPair
  remaining_invoices : List Txn
  remaining_payments : List Txn

/-- `safe_peeling.SafePeelingEngine.process`. -/
def safePeelProcess (fz : Fuzz) (s : Settings) (invoices payments : List Txn)
    (reference_date : Int) : PeelingResult :=
  let payment_by_reference := buildReferenceIndex payments
  let amount_counts := countAmountsInWindow s (invoices ++ payments) reference_date
  let res := safePeelGo fz s payments payment_by_reference amount_counts
    reference_date invoices [] [] []
  { matched_pairs := res.1
    remaining_invoices := invoices.filter (fun i => decide (i.id ∉ res.2.1))
    remaining_payments := payments.filter (fun p => decide (p.id ∉ res.2.2)) }

/-- All invoice ids appearing in a solver result's matched pairs and
partial matches. -/
def resultInvoiceIds (r : SolverResult) : List String :=
  (r.matched_pairs.map MatchedPair.invoice_ids).flatten ++
    r.partial_matches.map PartialMatch.invoice_id

/-- Total amount of the transactions with the given ids (used to read
a `PartialMatch`'s `payment_ids` against a cluster's payments). -/
def amountOfIds (txns : List Txn) (ids : List String) : Int :=
  ((txns.filter (fun t => decide (t.id ∈ ids))).map Txn.amount_cents).sum

/-- The underlying variable assignment of the solution `solve_cluster`
adopts: phase 3's when available, else phase 2's, else phase 1's. -/
def adoptedMilp (S1 : MilpSol) (phase2 phase3 : Option MilpSol) : MilpSol :=
  match phase3 with
  | some S3 => S3
  | none =>
    match phase2 with
    | some S2 => S2
    | none => S1

/-! ### Concrete instances used by counterexamples and witnesses -/

/-- Cluster with two 5.00 invoices and one 10.00 payment, both
invoices connected to the payment: exercises the greedy phase-2
fallback. -/
def c1Cluster : Cluster :=
  { id := "c1"
    invoices := [{ id := "I1", amount_cents := 500 }, { id := "I2", amount_cents := 500 }]
    payments := [{ id := "P1", amount_cents := 1000 }]
    edges := [{ invoice_id := "I1", payment_id := "P1", combined_score := 1 / 2 },
              { invoice_id := "I2", payment_id := "P1", combined_score := 1 / 2 }] }

/-- A phase-1 optimal assignment for `c1Cluster` selecting both
invoices and the payment (error 0). -/
def c1Phase1 : MilpSol :=
  { x := fun i => i == "I1" || i == "I2"
    y := fun j => j == "P1"
    r := fun _ => 0
    z := fun _ _ => false }

/-- A cluster the solver fails on outright (phase 1 yields nothing):
its result is marked `needs_rescue` and handed to the rescue loop. -/
def c1ClusterC : Cluster :=
  { id := "cC"
    invoices := [{ id := "I9", amount_cents := 500 }]
    payments := []
    edges := [] }

/-- The rescue loop's merge of the failed `c1ClusterC` with the
adjacent, already solved `c1Cluster`
(`RescueLoopEngine._attempt_rescue` → `merge_clusters`): the union of
their invoices, payments and edges. Re-solving it re-emits pairs for
`c1Cluster`'s invoices, which `orchestrator.run` appends a second
time. -/
def c1Merged : Cluster :=
  { id := "cC_c1"
    invoices := [{ id := "I9", amount_cents := 500 },
                 { id := "I1", amount_cents := 500 },
                 { id := "I2", amount_cents := 500 }]
    payments := [{ id := "P1", amount_cents := 1000 }]
    edges := [{ invoice_id := "I1", payment_id := "P1", combined_score := 1 / 2 },
              { invoice_id := "I2", payment_id := "P1", combined_score := 1 / 2 }] }

/-- Cluster with one 1.00 invoice and payments 0.60 and 0.40; the only
candidate edge links the invoice to the 0.60 payment. -/
def c2Cluster : Cluster :=
  { id := "c2"
    invoices := [{ id := "I1", amount_cents := 100 }]
    payments := [{ id := "P1", amount_cents := 60 }, { id := "P2", amount_cents := 40 }]
    edges := [{ invoice_id := "I1", payment_id := "P1", combined_score := 1 / 2 }] }

/-- A phase-3 optimal assignment for `c2Cluster`: the invoice and both
payments selected, the single edge matched, error 0. -/
def c2Phase3 : MilpSol :=
  { x := fun i => i == "I1"
    y := fun j => j == "P1" || j == "P2"
    r := fun _ => 0
    z := fun i j => i == "I1" && j == "P1" }

/-- Cluster with one 2.00 invoice and one 0.01 payment, connected. -/
def c3Cluster : Cluster :=
  { id := "c3"
    invoices := [{ id := "I1", amount_cents := 200 }]
    payments := [{ id := "P1", amount_cents := 1 }]
    edges := [{ invoice_id := "I1", payment_id := "P1", combined_score := 1 / 2 }] }

/-- A phase-3 optimal assignment for `c3Cluster`: the invoice fully
unpaid (`r = a`), the 0.01 payment absorbed by `gamma_pos = 1`. -/
def c3Phase3 : MilpSol :=
  { x := fun i => i == "I1"
    y := fun j => j == "P1"
    r := fun i => if i == "I1" then 200 else 0
    z := fun i j => i == "I1" && j == "P1"
    gamma_pos := 1 }

/-- Cluster with no invoice and a single 0.01 payment. -/
def c8Cluster : Cluster :=
  { id := "c8"
    payments := [{ id := "P1", amount_cents := 1 }] }

/-- A phase-2 optimal assignment for `c8Cluster` that uses the whole
+1 slack: the payment selected, balanced by `gamma_pos = 1`
(cardinality 0, error 1). -/
def c8Phase2 : MilpSol :=
  { x := fun _ => false
    y := fun j => j == "P1"
    r := fun _ => 0
    z := fun _ _ => false
    gamma_pos := 1 }

/-- Cluster with invoices 1000.00 and 1000.00 against payments 1000.00
and 1000.01, matched pairwise by two half-score edges. -/
def c9Cluster : Cluster :=
  { id := "c9"
    invoices := [{ id := "I1", amount_cents := 100000 }, { id := "I2", amount_cents := 100000 }]
    payments := [{ id := "P1", amount_cents := 100000 }, { id := "P2", amount_cents := 100001 }]
    edges := [{ invoice_id := "I1", payment_id := "P1", combined_score := 1 / 2 },
              { invoice_id := "I2", payment_id := "P2", combined_score := 1 / 2 }] }

/-- A phase-3 optimal assignment for `c9Cluster` (phase 2 failed, so
no cardinality bound): everything selected, both edges matched,
`delta = 1`. -/
def c9Phase3 : MilpSol :=
  { x := fun i => i == "I1" || i == "I2"
    y := fun j => j == "P1" || j == "P2"
    r := fun _ => 0
    z := fun i j => (i == "I1" && j == "P1") || (i == "I2" && j == "P2")
    delta := 1 }

/-- Three OCR blocks whose only candidates are debits of 5000.00,
2000.00 and 3000.00. -/
def exBlocks : List V16.TransactionBlock :=
  [{ block_id := 0, anchor_date := 0
     debit_candidates := [[{ value_cents := 500000, original_text := "5,000.00" }]] },
   { block_id := 1, anchor_date := 1
     debit_candidates := [[{ value_cents := 200000, original_text := "2,000.00" }]] },
   { block_id := 2, anchor_date := 2
     debit_candidates := [[{ value_cents := 300000, original_text := "3,000.00" }]] }]

/-- Boundary balances dropping by 5000.00 across `exBlocks`. -/
def exCtx : V16.ValidationContext :=
  { start_balance_cents := 1000000, end_balance_cents := 500000 }

/-- The selection the V16 CSP solver returns on `exBlocks`/`exCtx`:
block 0 as a debit, blocks 1 and 2 as noise (two nulls). -/
def exSelReturned : List V16.Choice :=
  [V16.Choice.debit { value_cents := 500000, original_text := "5,000.00" },
   V16.Choice.noise, V16.Choice.noise]

/-- An alternative valid selection for `exBlocks`/`exCtx` with a
single null: block 0 as noise, blocks 1 and 2 as debits. -/
def exSelFewerNulls : List V16.Choice :=
  [V16.Choice.noise,
   V16.Choice.debit { value_cents := 200000, original_text := "2,000.00" },
   V16.Choice.debit { value_cents := 300000, original_text := "3,000.00" }]

/-- The transaction the V16 engine emits for the first `exBlocks`
block taken as a debit. -/
def c6Sample : BankTransaction :=
  (V16.blocksToTransactions exBlocks
    [V16.Choice.debit { value_cents := 500000, original_text := "5,000.00" }]
    1000000 "doc.pdf").getD 0 default

/-- Invoice for the SafePeel boundary counterexample: amount 10.00,
counterparty name of thirteen letters `a`. -/
def c7Inv : Txn :=
  { id := "I1", amount_cents := 1000, transaction_date := some 0
    counterparty_name := some "aaaaaaaaaaaaa" }

/-- Payment for the SafePeel boundary counterexample: same amount,
counterparty name of seven letters `a`; on these two names rapidfuzz's
`token_sort_ratio` is exactly `(1 − 6/20)·100 = 70.0`. -/
def c7Pay : Txn :=
  { id := "P1", amount_cents := 1000, transaction_date := some 0
    counterparty_name := some "aaaaaaa" }

/-- The similarity capability on the counterexample's inputs:
`token_sort_ratio` returns exactly 70 (see `c7Pay`). -/
def c7Fuzz : Fuzz :=
  { token_sort_ratio := fun _ _ => 70
    token_set_ratio := fun _ _ => 0 }

/-- The unique-amount pair SafePeel emits for `c7Inv`/`c7Pay` with
similarity exactly at the 0.7 threshold. -/
def c7ThePair : MatchedPair :=
  peelPair defaultSettings c7Inv
    { invoice := c7Inv, payment := c7Pay, amount_match := true
      reference_match := false, text_similarity := 7 / 10
      days_apart := 0, is_unique_amount := true } 0

/-- The solution the solver adopts on `c2Cluster` (phase 3 available). -/
def c2Sol : SolverSolution := adoptedSolution c2Cluster zeroSol (some zeroSol) (some c2Phase3)

/-- The matched pair `_solution_to_result` emits on `c2Cluster`. -/
def c2Pair : MatchedPair :=
  (solutionToResult defaultSettings "c2" c2Sol (buildIdMap c2Cluster.invoices)
    (buildIdMap c2Cluster.payments)).matched_pairs.getD 0 default

/-- The solution the solver adopts on `c3Cluster` (phase 3 available). -/
def c3Sol : SolverSolution := adoptedSolution c3Cluster zeroSol (some zeroSol) (some c3Phase3)

/-- The partial match `_solution_to_result` emits on `c3Cluster`. -/
def c3Partial : PartialMatch :=
  (solutionToResult defaultSettings "c3" c3Sol (buildIdMap c3Cluster.invoices)
    (buildIdMap c3Cluster.payments)).partial_matches.getD 0 default

/-- Textless invoice for the no-comparable-fields witness. -/
def c10Inv : Txn := { id := "I1", amount_cents := 1000, transaction_date := some 0 }

/-- Textless payment for the no-comparable-fields witness. -/
def c10Pay : Txn := { id := "P1", amount_cents := 1000, transaction_date := some 0 }

/-! ## Supporting lemmas: the V16 CSP solver -/

namespace V16

theorem selDelta_cons (c : Choice) (s : List Choice) :
    selDelta (c :: s) = c.deltaVal + selDelta s := by
  simp [selDelta]

theorem selDelta_eq_creditSum_sub_debitSum (sel : List Choice) :
    selDelta sel = creditSum sel - debitSum sel := by
  induction sel with
  | nil => simp [selDelta, creditSum, debitSum]
  | cons c s ih =>
    simp only [selDelta, creditSum, debitSum, List.map_cons, List.sum_cons] at ih ⊢
    cases c <;> simp [Choice.deltaVal] <;> omega

theorem tryVariants_sound {mk : IsomorphicVariant → Choice} {sign : Int}
    {f : Int → Option (List Choice)} {cur : Int} :
    ∀ {vs : List IsomorphicVariant} {sel : List Choice},
      tryVariants mk sign f cur vs = some sel →
      ∃ v ∈ vs, ∃ s, sel = mk v :: s ∧ f (cur + sign * v.value_cents) = some s := by
  intro vs
  induction vs with
  | nil => intro sel h; simp [tryVariants] at h
  | cons v vs ih =>
    intro sel h
    simp only [tryVariants] at h
    split at h
    · rename_i rest hf
      refine ⟨v, List.mem_cons_self .., rest, ?_, hf⟩
      injection h with h
      exact h.symm
    · obtain ⟨v', hv', s, hsel, hs⟩ := ih h
      exact ⟨v', List.mem_cons_of_mem _ hv', s, hsel, hs⟩

/-- Soundness of the depth-first search: a returned selection covers
every block, draws each choice from the block's candidates, and lands
within the tolerance of the target. -/
theorem recursiveSolve_sound (target tolerance : Int) :
    ∀ (bs : List TransactionBlock) (cur : Int) (sel : List Choice),
      recursiveSolve target tolerance bs cur = some sel →
      sel.length = bs.length ∧ (∀ p ∈ bs.zip sel, ChoiceOfBlock p.1 p.2) ∧
        |cur + selDelta sel - target| ≤ tolerance := by
  intro bs
  induction bs with
  | nil =>
    intro cur sel h
    simp only [recursiveSolve] at h
    split at h
    · rename_i hin
      injection h with h
      subst h
      exact ⟨rfl, by simp, by simpa [selDelta] using hin⟩
    · exact absurd h (by simp)
  | cons b rest ih =>
    intro cur sel h
    simp only [recursiveSolve] at h
    split at h
    · exact absurd h (by simp)
    · split at h
      · rename_i sel1 hd
        injection h with h
        subst h
        obtain ⟨v, hv, s, rfl, hf⟩ := tryVariants_sound hd
        obtain ⟨hlen, hcb, hbal⟩ := ih _ _ hf
        refine ⟨by simpa using hlen, ?_, ?_⟩
        · intro p hp
          rw [List.zip_cons_cons] at hp
          rcases List.mem_cons.mp hp with rfl | hp
          · exact hv
          · exact hcb p hp
        · rw [selDelta_cons]
          have harg : cur + ((Choice.debit v).deltaVal + selDelta s) - target =
              cur + -1 * v.value_cents + selDelta s - target := by
            simp only [Choice.deltaVal]; ring
          rw [harg]
          exact hbal
      · split at h
        · rename_i sel1 hc
          injection h with h
          subst h
          obtain ⟨v, hv, s, rfl, hf⟩ := tryVariants_sound hc
          obtain ⟨hlen, hcb, hbal⟩ := ih _ _ hf
          refine ⟨by simpa using hlen, ?_, ?_⟩
          · intro p hp
            rw [List.zip_cons_cons] at hp
            rcases List.mem_cons.mp hp with rfl | hp
            · exact hv
            · exact hcb p hp
          · rw [selDelta_cons]
            have harg : cur + ((Choice.credit v).deltaVal + selDelta s) - target =
                cur + 1 * v.value_cents + selDelta s - target := by
              simp only [Choice.deltaVal]; ring
            rw [harg]
            exact hbal
        · split at h
          · rename_i s hf
            injection h with h
            subst h
            obtain ⟨hlen, hcb, hbal⟩ := ih _ _ hf
            refine ⟨by simpa using hlen, ?_, ?_⟩
            · intro p hp
              rw [List.zip_cons_cons] at hp
              rcases List.mem_cons.mp hp with rfl | hp
              · trivial
              · exact hcb p hp
            · rw [selDelta_cons]
              have harg : cur + (Choice.noise.deltaVal + selDelta s) - target =
                  cur + selDelta s - target := by
                simp only [Choice.deltaVal]; ring
              rw [harg]
              exact hbal
          · exact absurd h (by simp)

/-- The signed amounts of the emitted transactions add up to the
selection's delta. -/
theorem blocksToTransactionsGo_signed_sum (source_file : String) :
    ∀ (pairs : List (TransactionBlock × Choice)) (cur : Int),
      ((blocksToTransactionsGo source_file pairs cur).map signedAmount).sum =
        selDelta (pairs.map Prod.snd) := by
  intro pairs
  induction pairs with
  | nil => intro cur; simp [blocksToTransactionsGo, selDelta]
  | cons p rest ih =>
    intro cur
    obtain ⟨b, ch⟩ := p
    cases ch with
    | noise =>
      simp only [blocksToTransactionsGo, List.map_cons, selDelta_cons]
      rw [ih]
      simp [Choice.deltaVal]
    | debit v =>
      simp only [blocksToTransactionsGo, List.map_cons, List.sum_cons, selDelta_cons]
      rw [ih]
      simp [signedAmount, Choice.deltaVal]
    | credit v =>
      simp only [blocksToTransactionsGo, List.map_cons, List.sum_cons, selDelta_cons]
      rw [ih]
      simp [signedAmount, Choice.deltaVal]

/-- Every transaction emitted by `_blocks_to_transactions` satisfies
the balance recurrence. -/
theorem blocksToTransactionsGo_recurrence (source_file : String) :
    ∀ (pairs : List (TransactionBlock × Choice)) (cur : Int)
      (t : BankTransaction), t ∈ blocksToTransactionsGo source_file pairs cur →
      t.passes_recurrence_check = true ∧
      t.balance_after_cents = t.balance_before_cents.map (fun b =>
        b + (if t.transaction_type = TransactionType.credit then t.amount_cents
             else -t.amount_cents)) := by
  intro pairs
  induction pairs with
  | nil => intro cur t h; simp [blocksToTransactionsGo] at h
  | cons p rest ih =>
    intro cur t h
    obtain ⟨b, ch⟩ := p
    cases ch with
    | noise => exact ih _ t (by simpa [blocksToTransactionsGo] using h)
    | debit v =>
      simp only [blocksToTransactionsGo] at h
      rcases List.mem_cons.mp h with rfl | h
      · constructor
        · simp [BankTransaction.passes_recurrence_check]
        · simp [Option.map]
          try ring
      · exact ih _ t h
    | credit v =>
      simp only [blocksToTransactionsGo] at h
      rcases List.mem_cons.mp h with rfl | h
      · constructor
        · simp [BankTransaction.passes_recurrence_check]
        · simp [Option.map]
          try ring
      · exact ih _ t h

end V16

/-! ## Claims C4, C5, C6: BankRecovery -/

/-- C4.  Whenever the CSP solver reports success, the selection it
leaves on the blocks satisfies
`|start + Σ(credit values) − Σ(debit values) − end| ≤ 100` with the
tolerance the V16 engine instantiates; equivalently, the signed
amounts of the payments emitted from that solution sum to
`end − start` within 100 cents. -/
theorem c4_csp_balance_tolerance (ctx : V16.ValidationContext)
    (blocks : List V16.TransactionBlock) (sel : List V16.Choice)
    (h : V16.v16Solve ctx blocks = some sel) :
    |ctx.start_balance_cents + V16.creditSum sel - V16.debitSum sel -
      ctx.end_balance_cents| ≤ V16.v16ToleranceCents ∧
    ∀ src, |((V16.blocksToTransactions blocks sel ctx.start_balance_cents src).map
        V16.signedAmount).sum -
      (ctx.end_balance_cents - ctx.start_balance_cents)| ≤ V16.v16ToleranceCents := by
  obtain ⟨hlen, -, hbal⟩ := V16.recursiveSolve_sound _ _ _ _ _ h
  have hdelta : |V16.selDelta sel - (ctx.end_balance_cents - ctx.start_balance_cents)| ≤
      V16.v16ToleranceCents := by
    have harg : V16.selDelta sel - (ctx.end_balance_cents - ctx.start_balance_cents) =
        0 + V16.selDelta sel - (ctx.end_balance_cents - ctx.start_balance_cents) := by ring
    rw [harg]
    exact hbal
  constructor
  · have harg : ctx.start_balance_cents + V16.creditSum sel - V16.debitSum sel -
        ctx.end_balance_cents =
        V16.selDelta sel - (ctx.end_balance_cents - ctx.start_balance_cents) := by
      rw [V16.selDelta_eq_creditSum_sub_debitSum]
      ring
    rw [harg]
    exact hdelta
  · intro src
    rw [V16.blocksToTransactions, V16.blocksToTransactionsGo_signed_sum,
      List.map_snd_zip _ _ (le_of_eq hlen)]
    exact hdelta

/-- C4 witness: a concrete three-block document on which the V16
solver succeeds, with the balance bound evaluated. -/
theorem c4_csp_balance_tolerance_witness :
    |exCtx.start_balance_cents + V16.creditSum exSelReturned -
      V16.debitSum exSelReturned - exCtx.end_balance_cents| ≤ V16.v16ToleranceCents ∧
    |((V16.blocksToTransactions exBlocks exSelReturned exCtx.start_balance_cents
        "doc.pdf").map V16.signedAmount).sum -
      (exCtx.end_balance_cents - exCtx.start_balance_cents)| ≤ V16.v16ToleranceCents := by
  have h := c4_csp_balance_tolerance exCtx exBlocks exSelReturned (by decide)
  exact ⟨h.1, h.2 "doc.pdf"⟩

/-- C5 counterexample: on `exBlocks` the solver returns a selection
with two nulls although a valid selection with a single null exists —
the first feasible assignment in depth-first order is not
null-minimal. -/
theorem c5_noise_minimality_counterexample :
    V16.cspSolve 100 exCtx exBlocks = some exSelReturned ∧
    V16.ValidSelection 100 exCtx exBlocks exSelFewerNulls ∧
    ¬ V16.noiseCount exSelReturned ≤ V16.noiseCount exSelFewerNulls := by
  refine ⟨by decide, by decide, by decide⟩

/-- C5 (amended).  The CSP solver returns the first feasible
assignment in its depth-first order (debit variants, then credit
variants, then null, per block); any returned assignment is a valid
selection satisfying the balance-tolerance constraint, but it need not
minimize the number of nulls. -/
theorem c5_first_feasible_valid (tolerance : Int) (ctx : V16.ValidationContext)
    (blocks : List V16.TransactionBlock) (sel : List V16.Choice)
    (h : V16.cspSolve tolerance ctx blocks = some sel) :
    V16.ValidSelection tolerance ctx blocks sel := by
  obtain ⟨hlen, hcb, hbal⟩ := V16.recursiveSolve_sound _ _ _ _ _ h
  refine ⟨hlen, hcb, ?_⟩
  have harg : ctx.start_balance_cents + V16.selDelta sel - ctx.end_balance_cents =
      0 + V16.selDelta sel - (ctx.end_balance_cents - ctx.start_balance_cents) := by
    ring
  rw [harg]
  exact hbal

/-- C5 witness: the selection returned on the concrete document is a
valid selection. -/
theorem c5_first_feasible_valid_witness :
    V16.ValidSelection 100 exCtx exBlocks exSelReturned :=
  c5_first_feasible_valid 100 exCtx exBlocks exSelReturned (by decide)

/-- C6.  Every `BankTransaction` emitted by the V16 engine satisfies
the balance recurrence: `balance_after = balance_before + amount` for
credits and `balance_after = balance_before − amount` for debits (and
the model's own `passes_recurrence_check` accepts it). -/
theorem c6_balance_recurrence (blocks : List V16.TransactionBlock)
    (sel : List V16.Choice) (start_balance : Int) (source_file : String)
    (t : BankTransaction)
    (h : t ∈ V16.blocksToTransactions blocks sel start_balance source_file) :
    t.passes_recurrence_check = true ∧
    t.balance_after_cents = t.balance_before_cents.map (fun b =>
      b + (if t.transaction_type = TransactionType.credit then t.amount_cents
           else -t.amount_cents)) :=
  V16.blocksToTransactionsGo_recurrence source_file _ _ t h

/-- C6 witness: the recurrence holds on a concrete emitted
transaction. -/
theorem c6_balance_recurrence_witness :
    c6Sample.passes_recurrence_check = true ∧
    c6Sample.balance_after_cents = c6Sample.balance_before_cents.map (fun b =>
      b + (if c6Sample.transaction_type = TransactionType.credit then
        c6Sample.amount_cents else -c6Sample.amount_cents)) := by
  have hmem : c6Sample ∈ V16.blocksToTransactions exBlocks
      [V16.Choice.debit { value_cents := 500000, original_text := "5,000.00" }]
      1000000 "doc.pdf" := by
    rw [c6Sample, List.getD_eq_getElem?_getD]
    have hl : 0 < (V16.blocksToTransactions exBlocks
        [V16.Choice.debit { value_cents := 500000, original_text := "5,000.00" }]
        1000000 "doc.pdf").length := by decide
    rw [List.getElem?_eq_getElem hl]
    exact List.getElem_mem hl
  exact c6_balance_recurrence _ _ _ _ c6Sample hmem

/-! ## Supporting lemmas: association lists and the MILP model -/

theorem lookup_mem {α β : Type} [BEq α] [LawfulBEq α] {k : α} {v : β} :
    ∀ {l : List (α × β)}, List.lookup k l = some v → (k, v) ∈ l := by
  intro l
  induction l with
  | nil => intro h; simp [List.lookup] at h
  | cons p rest ih =>
    intro h
    obtain ⟨a, b⟩ := p
    rw [List.lookup] at h
    by_cases hk : k = a
    · subst hk
      simp at h
      simp [h]
    · have : (k == a) = false := beq_false_of_ne hk
      rw [this] at h
      exact List.mem_cons_of_mem _ (ih h)

theorem mem_upsert {α β : Type} [DecidableEq α] {k : α} {v : β} {p : α × β} :
    ∀ {m : List (α × β)}, p ∈ upsert k v m → p = (k, v) ∨ p ∈ m := by
  intro m
  induction m with
  | nil => intro h; simp [upsert] at h; exact Or.inl h
  | cons q rest ih =>
    intro h
    obtain ⟨a, b⟩ := q
    rw [upsert] at h
    split at h
    · rcases List.mem_cons.mp h with rfl | h
      · rename_i heq; exact Or.inl (by rw [heq])
      · exact Or.inr (List.mem_cons_of_mem _ h)
    · rcases List.mem_cons.mp h with rfl | h
      · exact Or.inr (List.mem_cons_self ..)
      · rcases ih h with h' | h'
        · exact Or.inl h'
        · exact Or.inr (List.mem_cons_of_mem _ h')

theorem mem_keys_upsert {α β : Type} [DecidableEq α] {k : α} {v : β} {x : α} :
    ∀ {m : List (α × β)}, x ∈ (upsert k v m).map Prod.fst →
      x = k ∨ x ∈ m.map Prod.fst := by
  intro m h
  obtain ⟨p, hp, rfl⟩ := List.mem_map.mp h
  rcases mem_upsert hp with rfl | hp'
  · exact Or.inl rfl
  · exact Or.inr (List.mem_map_of_mem _ hp')

theorem upsert_keys_nodup {α β : Type} [DecidableEq α] {k : α} {v : β} :
    ∀ {m : List (α × β)}, (m.map Prod.fst).Nodup →
      ((upsert k v m).map Prod.fst).Nodup := by
  intro m
  induction m with
  | nil => intro _; simp [upsert]
  | cons q rest ih =>
    intro h
    obtain ⟨a, b⟩ := q
    rw [upsert]
    split
    · simpa using h
    · rename_i hne
      simp only [List.map_cons, List.nodup_cons] at h ⊢
      refine ⟨fun hmem => ?_, ih h.2⟩
      rcases mem_keys_upsert hmem with rfl | hmem'
      · exact hne rfl
      · exact h.1 hmem'

theorem foldl_preserve {α β γ : Type} (f : β → α → β) (g : β → γ)
    (hf : ∀ b a, g (f b a) = g b) :
    ∀ (l : List α) (b : β), g (l.foldl f b) = g b := by
  intro l
  induction l with
  | nil => intro b; rfl
  | cons a rest ih => intro b; rw [List.foldl_cons, ih, hf]

theorem foldl_matches_nodup {α : Type} (f : SolverSolution → α → SolverSolution)
    (hf : ∀ sol a, (f sol a).«matches» = sol.«matches» ∨
      ∃ k v, (f sol a).«matches» = upsert k v sol.«matches») :
    ∀ (l : List α) (sol : SolverSolution),
      (sol.«matches».map Prod.fst).Nodup →
      ((l.foldl f sol).«matches».map Prod.fst).Nodup := by
  intro l
  induction l with
  | nil => intro sol h; exact h
  | cons a rest ih =>
    intro sol h
    rw [List.foldl_cons]
    refine ih _ ?_
    rcases hf sol a with heq | ⟨k, v, heq⟩
    · rwa [heq]
    · rw [heq]; exact upsert_keys_nodup h

/-- The solution `solve_cluster` adopts always has pairwise-distinct
invoice keys in `matches` (both extraction paths build the dict with
`matches[inv_id] = pay_id`). -/
theorem adoptedSolution_matches_nodup (cluster : Cluster) (S1 : MilpSol)
    (phase2 phase3 : Option MilpSol) :
    ((adoptedSolution cluster S1 phase2 phase3).«matches».map Prod.fst).Nodup := by
  have hfold : ∀ (pv : PhaseVals),
      ((extractSolutionFromPhase2 pv cluster).«matches».map Prod.fst).Nodup := by
    intro pv
    unfold extractSolutionFromPhase2
    apply foldl_matches_nodup
    · intro sol e
      dsimp only
      split
      · exact Or.inr ⟨e.invoice_id, e.payment_id, rfl⟩
      · exact Or.inl rfl
    · simp
  unfold adoptedSolution
  cases phase3 with
  | some S3 =>
    unfold solutionOfPhase3
    apply foldl_matches_nodup
    · intro sol e
      dsimp only
      split
      · exact Or.inr ⟨e.1.1, e.1.2, rfl⟩
      · exact Or.inl rfl
    · simp
  | none =>
    cases phase2 with
    | some S2 => exact hfold _
    | none => exact hfold _

theorem buildIdMap_mem {txns : List Txn} {p : String × Txn} :
    p ∈ buildIdMap txns → p.2 ∈ txns ∧ p.1 = p.2.id := by
  have hgen : ∀ (l : List Txn) (acc : List (String × Txn)),
      (∀ q ∈ acc, q.2 ∈ txns ∧ q.1 = q.2.id) → (∀ t ∈ l, t ∈ txns) →
      ∀ q ∈ l.foldl (fun m t => upsert t.id t m) acc, q.2 ∈ txns ∧ q.1 = q.2.id := by
    intro l
    induction l with
    | nil => intro acc hacc _ q hq; exact hacc q hq
    | cons t rest ih =>
      intro acc hacc hl q hq
      rw [List.foldl_cons] at hq
      refine ih _ ?_ (fun u hu => hl u (List.mem_cons_of_mem _ hu)) q hq
      intro r hr
      rcases mem_upsert hr with rfl | hr'
      · exact ⟨hl t (List.mem_cons_self ..), rfl⟩
      · exact hacc r hr'
  intro h
  exact hgen txns [] (by simp) (fun _ ht => ht) p h

theorem errVal_nonneg {s : Settings} {maxDelta : Int}
    {invMap payMap : List (String × Txn)} {S : MilpSol}
    (h : BaseFeasible s maxDelta invMap payMap S) : 0 ≤ errVal S := by
  obtain ⟨-, ⟨hgp, -⟩, ⟨hgn, -⟩, ⟨hd, -⟩, -⟩ := h
  unfold errVal
  omega

theorem cardVal_nonneg (invMap : List (String × Txn)) (S : MilpSol) :
    0 ≤ cardVal invMap S := by
  unfold cardVal
  apply List.sum_nonneg
  intro x hx
  obtain ⟨p, -, rfl⟩ := List.mem_map.mp hx
  split <;> omega

theorem scoreVal_le_of_all {edgeWeights : List ((String × String) × ℚ)}
    {S : MilpSol} (S' : MilpSol)
    (hall : ∀ e ∈ edgeWeights, S.z e.1.1 e.1.2 = true)
    (hpos : ∀ e ∈ edgeWeights, 0 ≤ pyInt (e.2 * 1000)) :
    scoreVal edgeWeights S' ≤ scoreVal edgeWeights S := by
  unfold scoreVal
  apply List.sum_le_sum
  intro e he
  rw [hall e he]
  split
  · simp
  · simpa using hpos e he

theorem gammaOut_abs_le {S : MilpSol} (hp : 0 ≤ S.gamma_pos) (hn : 0 ≤ S.gamma_neg) :
    |phaseGammaOut S| ≤ S.gamma_pos + S.gamma_neg := by
  unfold phaseGammaOut
  split
  · rw [abs_le]; omega
  · simp
    omega

/-- Every `MatchedPair` emitted by `_solution_to_result` carries as
gap either the solution's cluster-wide `gamma_cents` or a converted
remainder in `(0, max_abs_delta_cents]`. -/
theorem solutionToResultGo_gap (s : Settings) (sol : SolverSolution)
    (invMap payMap : List (String × Txn)) :
    ∀ (ms : List (String × String)) (pairs : List MatchedPair)
      (partials : List PartialMatch) (uI uP : List String),
      (∀ p ∈ pairs, p.gap_cents = sol.gamma_cents ∨
        (0 < p.gap_cents ∧ p.gap_cents ≤ s.max_abs_delta_cents)) →
      ∀ p ∈ (solutionToResultGo s sol invMap payMap ms pairs partials uI uP).1,
        p.gap_cents = sol.gamma_cents ∨
          (0 < p.gap_cents ∧ p.gap_cents ≤ s.max_abs_delta_cents) := by
  intro ms
  induction ms with
  | nil => intro pairs partials uI uP hpairs; simpa [solutionToResultGo] using hpairs
  | cons m rest ih =>
    intro pairs partials uI uP hpairs
    obtain ⟨k, j⟩ := m
    simp only [solutionToResultGo]
    split
    · exact ih pairs partials uI uP hpairs
    · rename_i inv heqi
      split
      · exact ih pairs partials uI uP hpairs
      · rename_i pay heqj
        by_cases hc : 0 < (sol.remainders.lookup k).getD 0 ∧
            (sol.remainders.lookup k).getD 0 ≤ s.max_abs_delta_cents
        · rw [if_pos hc, if_neg (by simp)]
          refine ih _ partials _ _ ?_
          intro p hp
          rcases List.mem_append.mp hp with hp | hp
          · exact hpairs p hp
          · rw [List.mem_singleton.mp hp]
            exact Or.inr hc
        · rw [if_neg hc]
          by_cases hrem : 0 < (sol.remainders.lookup k).getD 0
          · rw [if_pos (by simpa using hrem)]
            exact ih pairs _ _ _ hpairs
          · rw [if_neg (by simpa using hrem)]
            refine ih _ partials _ _ ?_
            intro p hp
            rcases List.mem_append.mp hp with hp | hp
            · exact hpairs p hp
            · rw [List.mem_singleton.mp hp]
              exact Or.inl rfl

/-- Every `PartialMatch` emitted by `_solution_to_result` satisfies
`paid + remainder = invoice_amount` with
`max_abs_delta_cents < remainder ≤ invoice_amount` (the remainder
bound needs the solution's remainders to respect the invoices'
amounts, as the MILP variable bounds guarantee). -/
theorem solutionToResultGo_partials (s : Settings) (sol : SolverSolution)
    (invMap payMap : List (String × Txn))
    (hr : ∀ q ∈ sol.remainders, ∀ inv, invMap.lookup q.1 = some inv →
      q.2 ≤ inv.amount_cents) :
    ∀ (ms : List (String × String)) (pairs : List MatchedPair)
      (partials : List PartialMatch) (uI uP : List String),
      (∀ q ∈ partials, q.paid_amount_cents + q.remainder_cents = q.invoice_amount_cents ∧
        s.max_abs_delta_cents < q.remainder_cents ∧
        q.remainder_cents ≤ q.invoice_amount_cents) →
      ∀ q ∈ (solutionToResultGo s sol invMap payMap ms pairs partials uI uP).2.1,
        q.paid_amount_cents + q.remainder_cents = q.invoice_amount_cents ∧
          s.max_abs_delta_cents < q.remainder_cents ∧
          q.remainder_cents ≤ q.invoice_amount_cents := by
  intro ms
  induction ms with
  | nil => intro pairs partials uI uP hpart; simpa [solutionToResultGo] using hpart
  | cons m rest ih =>
    intro pairs partials uI uP hpart
    obtain ⟨k, j⟩ := m
    simp only [solutionToResultGo]
    split
    · exact ih pairs partials uI uP hpart
    · rename_i inv heqi
      split
      · exact ih pairs partials uI uP hpart
      · rename_i pay heqj
        by_cases hc : 0 < (sol.remainders.lookup k).getD 0 ∧
            (sol.remainders.lookup k).getD 0 ≤ s.max_abs_delta_cents
        · rw [if_pos hc, if_neg (by simp)]
          exact ih _ partials _ _ hpart
        · rw [if_neg hc]
          by_cases hrem : 0 < (sol.remainders.lookup k).getD 0
          · rw [if_pos (by simpa using hrem)]
            refine ih pairs _ _ _ ?_
            intro q hq
            rcases List.mem_append.mp hq with hq | hq
            · exact hpart q hq
            · rw [List.mem_singleton.mp hq]
              dsimp only
              refine ⟨by ring, by omega, ?_⟩
              cases hlook : sol.remainders.lookup k with
              | none => rw [hlook] at hrem; simp at hrem
              | some v =>
                simpa using hr (k, v) (lookup_mem hlook) inv heqi
          · rw [if_neg (by simpa using hrem)]
            exact ih _ partials _ _ hpart

theorem nodup_of_middle_insert {A B R : List String} {k : String}
    (h : ((A ++ B) ++ k :: R).Nodup) : ((A ++ [k] ++ B) ++ R).Nodup := by
  have e1 : (A ++ [k] ++ B) ++ R = A ++ k :: (B ++ R) := by simp
  have e2 : (A ++ B) ++ k :: R = A ++ (B ++ k :: R) := by simp
  rw [e1]
  rw [e2] at h
  have hp : List.Perm (A ++ k :: (B ++ R)) (A ++ (B ++ k :: R)) :=
    List.Perm.append_left A List.perm_middle.symm
  exact hp.symm.nodup h

/-- The invoice ids of all pairs and partials emitted by
`_solution_to_result` are pairwise distinct provided the keys of
`matches` are (each key contributes at most one pair or partial). -/
theorem solutionToResultGo_ids_nodup (s : Settings) (sol : SolverSolution)
    (invMap payMap : List (String × Txn)) :
    ∀ (ms : List (String × String)) (pairs : List MatchedPair)
      (partials : List PartialMatch) (uI uP : List String),
      (((pairs.map MatchedPair.invoice_ids).flatten ++
        partials.map PartialMatch.invoice_id) ++ ms.map Prod.fst).Nodup →
      (((solutionToResultGo s sol invMap payMap ms pairs partials uI uP).1.map
          MatchedPair.invoice_ids).flatten ++
        (solutionToResultGo s sol invMap payMap ms pairs partials uI uP).2.1.map
          PartialMatch.invoice_id).Nodup := by
  intro ms
  induction ms with
  | nil =>
    intro pairs partials uI uP h
    simpa [solutionToResultGo] using h
  | cons m rest ih =>
    intro pairs partials uI uP h
    obtain ⟨k, j⟩ := m
    have hdrop : (((pairs.map MatchedPair.invoice_ids).flatten ++
        partials.map PartialMatch.invoice_id) ++ rest.map Prod.fst).Nodup := by
      refine List.Nodup.sublist ?_ h
      exact List.Sublist.append_left (List.sublist_cons_self _ _) _
    simp only [solutionToResultGo]
    split
    · exact ih pairs partials uI uP hdrop
    · rename_i inv heqi
      split
      · exact ih pairs partials uI uP hdrop
      · rename_i pay heqj
        by_cases hc : 0 < (sol.remainders.lookup k).getD 0 ∧
            (sol.remainders.lookup k).getD 0 ≤ s.max_abs_delta_cents
        · rw [if_pos hc, if_neg (by simp)]
          refine ih _ partials _ _ ?_
          simp only [List.map_append, List.flatten_append, List.map_cons] at h ⊢
          simp only [List.map_nil, List.flatten_cons, List.flatten_nil, List.append_nil]
          exact nodup_of_middle_insert (by simpa using h)
        · rw [if_neg hc]
          by_cases hrem : 0 < (sol.remainders.lookup k).getD 0
          · rw [if_pos (by simpa using hrem)]
            refine ih pairs _ _ _ ?_
            simp only [List.map_append, List.map_cons] at h ⊢
            simp only [List.map_nil, List.append_nil]
            simpa [List.append_assoc] using h
          · rw [if_neg (by simpa using hrem)]
            refine ih _ partials _ _ ?_
            simp only [List.map_append, List.flatten_append, List.map_cons] at h ⊢
            simp only [List.map_nil, List.flatten_cons, List.flatten_nil, List.append_nil]
            exact nodup_of_middle_insert (by simpa using h)

/-! ## Claims C1 and C3: result uniqueness and partial matches -/

/-- C1 (amended).  No invoice id appears in more than one
`MatchedPair`/`PartialMatch` of a SINGLE cluster's solver result,
whatever the phase outcomes.  Neither uniqueness survives aggregation
into the final result: (a) when the rescue loop re-solves the merge
`c1Merged` of a failed cluster with the already solved `c1Cluster`
(a legitimate phase-1 optimum drives the re-solve), the aggregation
appends `c1Cluster`'s invoice ids a second time, so the final result
repeats invoice ids; (b) payment ids can repeat even within one
result: on `c1Cluster`, with phases 2 and 3 unavailable, the greedy
fallback assigns the single payment to both selected invoices. -/
theorem c1_invoice_id_uniqueness :
    (∀ (s : Settings) (cluster : Cluster) (phase1 phase2 phase3 : Option MilpSol),
      (resultInvoiceIds (solveCluster s cluster phase1 phase2 phase3)).Nodup) ∧
    Phase1Optimal defaultSettings (clusterMaxDelta defaultSettings c1Merged)
      (buildIdMap c1Merged.invoices) (buildIdMap c1Merged.payments) c1Phase1 ∧
    (solveCluster defaultSettings c1ClusterC none none none).needs_rescue = true ∧
    ¬ (((runAggregate []
        [solveCluster defaultSettings c1Cluster (some c1Phase1) none none,
         solveCluster defaultSettings c1ClusterC none none none]
        [solveCluster defaultSettings c1Merged (some c1Phase1) none
          none]).matched_pairs.map MatchedPair.invoice_ids).flatten).Nodup ∧
    ¬ (((runAggregate []
        [solveCluster defaultSettings c1Cluster (some c1Phase1) none none]
        []).matched_pairs.map MatchedPair.payment_ids).flatten).Nodup := by
  refine ⟨?_, ⟨by decide, ?_⟩, by decide, by decide, ?_⟩
  · intro s cluster phase1 phase2 phase3
    cases phase1 with
    | none => simp [solveCluster, resultInvoiceIds]
    | some S1 =>
      have hkeys := adoptedSolution_matches_nodup cluster S1 phase2 phase3
      simp only [solveCluster, resultInvoiceIds, solutionToResult]
      apply solutionToResultGo_ids_nodup
      simpa using hkeys
  · intro S' h'
    have h0 : errVal c1Phase1 = 0 := by decide
    have h1 := errVal_nonneg h'
    omega
  · decide

/-- C1 counterexample: a phase-1 optimal selection of `c1Cluster`
(both invoices and the payment, error 0) whose greedy fallback result
puts payment `P1` into two distinct `MatchedPair`s of the final
aggregated result — distinct entries do not have disjoint payment-id
sets. -/
theorem c1_payment_reuse_counterexample :
    Phase1Optimal defaultSettings (clusterMaxDelta defaultSettings c1Cluster)
      (buildIdMap c1Cluster.invoices) (buildIdMap c1Cluster.payments) c1Phase1 ∧
    ((runAggregate []
      [solveCluster defaultSettings c1Cluster (some c1Phase1) none none]
      []).matched_pairs.map MatchedPair.payment_ids) = [["P1"], ["P1"]] ∧
    ¬ (((runAggregate []
      [solveCluster defaultSettings c1Cluster (some c1Phase1) none none]
      []).matched_pairs.map MatchedPair.payment_ids).flatten).Nodup := by
  refine ⟨⟨by decide, ?_⟩, by decide, by decide⟩
  intro S' h'
  have h0 : errVal c1Phase1 = 0 := by decide
  have h1 := errVal_nonneg h'
  omega

/-- C3 (amended).  Every `PartialMatch` emitted by the solver's
result conversion satisfies `paid + remainder = invoice_amount` and
`max_abs_delta_cents < remainder ≤ invoice_amount` — so
`0 < remainder`, but `remainder = invoice_amount` is attainable, and
the payments listed in `payment_ids` need not sum to
`paid_amount_cents`. -/
theorem c3_partial_characterization (s : Settings) (cluster_id : String)
    (sol : SolverSolution) (invMap payMap : List (String × Txn))
    (hnn : 0 ≤ s.max_abs_delta_cents)
    (hr : ∀ q ∈ sol.remainders, ∀ inv, invMap.lookup q.1 = some inv →
      q.2 ≤ inv.amount_cents)
    (q : PartialMatch)
    (hq : q ∈ (solutionToResult s cluster_id sol invMap payMap).partial_matches) :
    q.paid_amount_cents + q.remainder_cents = q.invoice_amount_cents ∧
    0 < q.remainder_cents ∧
    s.max_abs_delta_cents < q.remainder_cents ∧
    q.remainder_cents ≤ q.invoice_amount_cents := by
  have hmain := solutionToResultGo_partials s sol invMap payMap hr
    sol.«matches» [] [] [] [] (by simp) q
    (by simpa [solutionToResult] using hq)
  exact ⟨hmain.1, by omega, hmain.2.1, hmain.2.2⟩

/-- C3 witness: the partial match emitted on `c3Cluster` satisfies the
amended characterization (with `remainder = invoice_amount = 200`). -/
theorem c3_partial_characterization_witness :
    c3Partial.paid_amount_cents + c3Partial.remainder_cents =
      c3Partial.invoice_amount_cents ∧
    0 < c3Partial.remainder_cents ∧
    defaultSettings.max_abs_delta_cents < c3Partial.remainder_cents ∧
    c3Partial.remainder_cents ≤ c3Partial.invoice_amount_cents :=
  c3_partial_characterization defaultSettings "c3" c3Sol
    (buildIdMap c3Cluster.invoices) (buildIdMap c3Cluster.payments)
    (by decide) (by decide) c3Partial (by decide)

/-- C3 counterexample: on `c3Cluster` an optimal run of all three
phases emits a `PartialMatch` with `remainder = invoice_amount = 200`
(not strictly less) and whose listed payment amounts sum to 1, not to
`paid_amount_cents = 0`. -/
theorem c3_partial_counterexample :
    Phase1Optimal defaultSettings (clusterMaxDelta defaultSettings c3Cluster)
      (buildIdMap c3Cluster.invoices) (buildIdMap c3Cluster.payments) zeroSol ∧
    Phase2Optimal defaultSettings (clusterMaxDelta defaultSettings c3Cluster)
      (buildIdMap c3Cluster.invoices) (buildIdMap c3Cluster.payments) 0 0 zeroSol ∧
    Phase3Optimal defaultSettings (clusterMaxDelta defaultSettings c3Cluster)
      (buildIdMap c3Cluster.invoices) (buildIdMap c3Cluster.payments)
      (buildEdgeWeights c3Cluster.edges) 0 0 (some 0) c3Phase3 ∧
    ((solveCluster defaultSettings c3Cluster (some zeroSol) (some zeroSol)
      (some c3Phase3)).partial_matches.map (fun q =>
        (q.invoice_amount_cents, q.paid_amount_cents, q.remainder_cents,
          amountOfIds c3Cluster.payments q.payment_ids))) = [(200, 0, 200, 1)] ∧
    ¬ (∀ q ∈ (solveCluster defaultSettings c3Cluster (some zeroSol) (some zeroSol)
        (some c3Phase3)).partial_matches,
        q.remainder_cents < q.invoice_amount_cents ∧
        amountOfIds c3Cluster.payments q.payment_ids = q.paid_amount_cents) := by
  refine ⟨⟨by decide, ?_⟩, ⟨by decide, ?_⟩, ⟨by decide, ?_⟩, by decide, by decide⟩
  · intro S' h'
    have h0 : errVal zeroSol = 0 := by decide
    have h1 := errVal_nonneg h'
    omega
  · intro S' h'
    have h0 : cardVal (buildIdMap c3Cluster.invoices) zeroSol = 0 := by decide
    have h1 := cardVal_nonneg (buildIdMap c3Cluster.invoices) S'
    omega
  · intro S' _
    exact scoreVal_le_of_all S' (by decide) (by decide)

/-! ## Claims C8 and C9: phase monotonicity and the rescue trigger -/

/-- Under phase-1 optimality the optimal error is 0: deselecting
everything is always feasible (given sane settings and non-negative
invoice amounts), and the objective is non-negative. -/
theorem phase1_optimal_err_zero (s : Settings) (cluster : Cluster) {S1 : MilpSol}
    (hamt : ∀ t ∈ cluster.invoices, 0 ≤ t.amount_cents)
    (hdelta : 0 ≤ clusterMaxDelta s cluster)
    (hgap : 0 ≤ s.fixed_gap_threshold_cents)
    (h1 : Phase1Optimal s (clusterMaxDelta s cluster) (buildIdMap cluster.invoices)
      (buildIdMap cluster.payments) S1) :
    errVal S1 = 0 := by
  have hzero : BaseFeasible s (clusterMaxDelta s cluster) (buildIdMap cluster.invoices)
      (buildIdMap cluster.payments) zeroSol := by
    refine ⟨?_, ⟨le_refl 0, hgap⟩, ⟨le_refl 0, hgap⟩, ⟨le_refl 0, hdelta⟩, ?_, ?_, ?_⟩
    · intro p hp
      obtain ⟨hmem, -⟩ := buildIdMap_mem hp
      exact ⟨le_refl 0, hamt _ hmem⟩
    · have hi : invoiceSum (buildIdMap cluster.invoices) zeroSol = 0 := by
        unfold invoiceSum
        apply List.sum_eq_zero
        intro x hx
        obtain ⟨p, -, rfl⟩ := List.mem_map.mp hx
        simp [zeroSol]
      have hp : paymentSum (buildIdMap cluster.payments) zeroSol = 0 := by
        unfold paymentSum
        apply List.sum_eq_zero
        intro x hx
        obtain ⟨p, -, rfl⟩ := List.mem_map.mp hx
        simp [zeroSol]
      rw [hi, hp]
      simp [zeroSol]
    · intro p hp
      simp [zeroSol]
    · intro ip hip pp hpp hcaus hxy
      simp [zeroSol] at hxy
  have hle := h1.2 zeroSol hzero
  have hz : errVal zeroSol = 0 := rfl
  have hge := errVal_nonneg h1.1
  omega

/-- `_extract_solution_from_phase2` copies the phase dict's residuals
unchanged (the greedy fold only touches `matches` and the score). -/
theorem extractFromPhase2_residuals (pv : PhaseVals) (cluster : Cluster) :
    (extractSolutionFromPhase2 pv cluster).delta_cents = pv.delta ∧
    (extractSolutionFromPhase2 pv cluster).gamma_cents = pv.gamma := by
  unfold extractSolutionFromPhase2
  constructor
  · rw [foldl_preserve _ SolverSolution.delta_cents]
    intro sol e
    dsimp only
    split <;> rfl
  · rw [foldl_preserve _ SolverSolution.gamma_cents]
    intro sol e
    dsimp only
    split <;> rfl

/-- The phase-3 extraction copies the assignment's residuals (with
the `gamma` sign quirk) unchanged. -/
theorem solutionOfPhase3_residuals (invMap payMap : List (String × Txn))
    (edgeWeights : List ((String × String) × ℚ)) (S : MilpSol) :
    (solutionOfPhase3 invMap payMap edgeWeights S).delta_cents = S.delta ∧
    (solutionOfPhase3 invMap payMap edgeWeights S).gamma_cents = phaseGammaOut S := by
  unfold solutionOfPhase3
  constructor
  · rw [foldl_preserve _ SolverSolution.delta_cents]
    intro sol e
    dsimp only
    split <;> rfl
  · rw [foldl_preserve _ SolverSolution.gamma_cents]
    intro sol e
    dsimp only
    split <;> rfl

/-- C8 (amended).  The phase-1 optimum is always 0 (the empty
selection is feasible), and because phases 2 and 3 enforce the bound
`δ + γ⁺ + γ⁻ ≤ δ* + |γ*| + 1` — with a one-cent slack — the solution
adopted after phases 2 and 3 has error at most `δ* + |γ*| + 1`; it can
exceed `δ* + |γ*|` by that one cent, so the phases are only
slack-monotone, not error-monotone. -/
theorem c8_error_slack_bound (s : Settings) (cluster : Cluster) (S1 : MilpSol)
    (phase2 phase3 : Option MilpSol)
    (hamt : ∀ t ∈ cluster.invoices, 0 ≤ t.amount_cents)
    (hdelta : 0 ≤ clusterMaxDelta s cluster)
    (hgap : 0 ≤ s.fixed_gap_threshold_cents)
    (h1 : Phase1Optimal s (clusterMaxDelta s cluster) (buildIdMap cluster.invoices)
      (buildIdMap cluster.payments) S1)
    (h2 : ∀ S2, phase2 = some S2 → Phase2Feasible s (clusterMaxDelta s cluster)
      (buildIdMap cluster.invoices) (buildIdMap cluster.payments)
      S1.delta (phaseGammaOut S1) S2)
    (h3 : ∀ S3, phase3 = some S3 → Phase3Feasible s (clusterMaxDelta s cluster)
      (buildIdMap cluster.invoices) (buildIdMap cluster.payments)
      (buildEdgeWeights cluster.edges) S1.delta (phaseGammaOut S1)
      (phase2.map (fun S2 => cardVal (buildIdMap cluster.invoices) S2)) S3) :
    errVal S1 = 0 ∧
    errVal (adoptedMilp S1 phase2 phase3) ≤ errVal S1 + 1 ∧
    (adoptedSolution cluster S1 phase2 phase3).delta_cents +
      |(adoptedSolution cluster S1 phase2 phase3).gamma_cents| ≤ errVal S1 + 1 := by
  have herr0 := phase1_optimal_err_zero s cluster hamt hdelta hgap h1
  obtain ⟨-, ⟨hgp1, -⟩, ⟨hgn1, -⟩, ⟨hd1, -⟩, -⟩ := h1.1
  have hcomp : S1.delta = 0 ∧ S1.gamma_pos = 0 ∧ S1.gamma_neg = 0 := by
    unfold errVal at herr0
    omega
  have hout : phaseGammaOut S1 = 0 := by
    simp [phaseGammaOut, hcomp.2.1]
  have hbound : ∀ (S : MilpSol), BaseFeasible s (clusterMaxDelta s cluster)
      (buildIdMap cluster.invoices) (buildIdMap cluster.payments) S →
      errVal S ≤ S1.delta + |phaseGammaOut S1| + 1 →
      S.delta + |phaseGammaOut S| ≤ 1 := by
    intro S hbase herrle
    obtain ⟨-, ⟨hgp, -⟩, ⟨hgn, -⟩, ⟨hd, -⟩, -⟩ := hbase
    have habs := gammaOut_abs_le hgp hgn
    rw [hcomp.1, hout] at herrle
    simp only [abs_zero] at herrle
    unfold errVal at herrle
    omega
  refine ⟨herr0, ?_, ?_⟩
  · cases phase3 with
    | some S3 =>
      obtain ⟨hbase, -, herrle, -⟩ := h3 S3 rfl
      simp only [adoptedMilp]
      rw [herr0, hcomp.1, hout] at *
      simpa using herrle
    | none =>
      cases phase2 with
      | some S2 =>
        obtain ⟨hbase, herrle⟩ := h2 S2 rfl
        simp only [adoptedMilp]
        rw [herr0, hcomp.1, hout] at *
        simpa using herrle
      | none =>
        simp only [adoptedMilp]
        omega
  · cases phase3 with
    | some S3 =>
      obtain ⟨hbase, -, herrle, -⟩ := h3 S3 rfl
      have hres := solutionOfPhase3_residuals (buildIdMap cluster.invoices)
        (buildIdMap cluster.payments) (buildEdgeWeights cluster.edges) S3
      simp only [adoptedSolution]
      rw [hres.1, hres.2, herr0]
      simpa using hbound S3 hbase herrle
    | none =>
      cases phase2 with
      | some S2 =>
        obtain ⟨hbase, herrle⟩ := h2 S2 rfl
        have hres := extractFromPhase2_residuals
          (phaseOut (buildIdMap cluster.invoices) (buildIdMap cluster.payments) true S2)
          cluster
        simp only [adoptedSolution]
        rw [hres.1, hres.2, herr0]
        simpa using hbound S2 hbase herrle
      | none =>
        have hres := extractFromPhase2_residuals
          (phaseOut (buildIdMap cluster.invoices) (buildIdMap cluster.payments) false S1)
          cluster
        simp only [adoptedSolution]
        rw [hres.1, hres.2]
        simp only [phaseOut]
        rw [hcomp.1, hout]
        simp
        omega

/-- C8 witness: the bound instantiated on `c8Cluster` with all-zero
phase-1 optimum and failed phases 2 and 3. -/
theorem c8_error_slack_bound_witness :
    errVal zeroSol = 0 ∧
    errVal (adoptedMilp zeroSol none none) ≤ errVal zeroSol + 1 ∧
    (adoptedSolution c8Cluster zeroSol none none).delta_cents +
      |(adoptedSolution c8Cluster zeroSol none none).gamma_cents| ≤ errVal zeroSol + 1 := by
  refine c8_error_slack_bound defaultSettings c8Cluster zeroSol none none
    (by decide) (by decide) (by decide) ⟨by decide, ?_⟩
    (fun S2 h => Option.noConfusion h) (fun S3 h => Option.noConfusion h)
  intro S' h'
  have h0 : errVal zeroSol = 0 := by decide
  have h1 := errVal_nonneg h'
  omega

/-- C8 counterexample: on `c8Cluster` the phase-1 optimum is 0, yet a
phase-2 optimal assignment (cardinality 0) has error 1 — the +1 slack
lets phase 2 worsen the error, and the adopted solution records
`delta + |gamma| = 1 > 0`. -/
theorem c8_error_worsening_counterexample :
    Phase1Optimal defaultSettings (clusterMaxDelta defaultSettings c8Cluster)
      (buildIdMap c8Cluster.invoices) (buildIdMap c8Cluster.payments) zeroSol ∧
    Phase2Optimal defaultSettings (clusterMaxDelta defaultSettings c8Cluster)
      (buildIdMap c8Cluster.invoices) (buildIdMap c8Cluster.payments) 0 0 c8Phase2 ∧
    errVal zeroSol = 0 ∧ errVal c8Phase2 = 1 ∧
    ¬ errVal c8Phase2 ≤ errVal zeroSol ∧
    (adoptedSolution c8Cluster zeroSol (some c8Phase2) none).delta_cents +
      |(adoptedSolution c8Cluster zeroSol (some c8Phase2) none).gamma_cents| = 1 := by
  refine ⟨⟨by decide, ?_⟩, ⟨by decide, ?_⟩, by decide, by decide, by decide, by decide⟩
  · intro S' h'
    have h0 : errVal zeroSol = 0 := by decide
    have h1 := errVal_nonneg h'
    omega
  · intro S' h'
    have h0 : cardVal (buildIdMap c8Cluster.invoices) c8Phase2 = 0 := by decide
    have h1 := cardVal_nonneg (buildIdMap c8Cluster.invoices) S'
    omega

/-- C9 (amended).  `solve_cluster` marks a cluster `needs_rescue` iff
the adopted solution has `delta > 0`, zero total remainder, and TOTAL
semantic score (the sum over matched pairs, not the per-match average)
below `rescue_semantic_threshold`. -/
theorem c9_rescue_characterization (s : Settings) (cluster : Cluster) (S1 : MilpSol)
    (phase2 phase3 : Option MilpSol) :
    (solveCluster s cluster (some S1) phase2 phase3).needs_rescue = true ↔
      (0 < (adoptedSolution cluster S1 phase2 phase3).delta_cents ∧
       sumRemainders (adoptedSolution cluster S1 phase2 phase3) = 0 ∧
       (adoptedSolution cluster S1 phase2 phase3).semantic_score <
         s.rescue_semantic_threshold) := by
  simp [solveCluster, needsRescueFlag, Bool.and_eq_true, decide_eq_true_eq, and_assoc]

/-- C9 counterexample: on `c9Cluster` with phase 2 failed, a phase-3
optimal solution matches both invoices with `delta = 1`, no
remainders, and total score 1.0; the per-match average 0.5 is below
the 0.8 threshold, so the claim demands a rescue mark, but the code
compares the total (1.0) and does not set `needs_rescue`. -/
theorem c9_average_vs_total_counterexample :
    Phase1Optimal defaultSettings (clusterMaxDelta defaultSettings c9Cluster)
      (buildIdMap c9Cluster.invoices) (buildIdMap c9Cluster.payments) zeroSol ∧
    Phase3Optimal defaultSettings (clusterMaxDelta defaultSettings c9Cluster)
      (buildIdMap c9Cluster.invoices) (buildIdMap c9Cluster.payments)
      (buildEdgeWeights c9Cluster.edges) 0 0 none c9Phase3 ∧
    (solveCluster defaultSettings c9Cluster (some zeroSol) none
      (some c9Phase3)).needs_rescue = false ∧
    0 < (adoptedSolution c9Cluster zeroSol none (some c9Phase3)).delta_cents ∧
    sumRemainders (adoptedSolution c9Cluster zeroSol none (some c9Phase3)) = 0 ∧
    (adoptedSolution c9Cluster zeroSol none (some c9Phase3)).semantic_score /
        ((adoptedSolution c9Cluster zeroSol none (some c9Phase3)).«matches».length : ℚ) <
      defaultSettings.rescue_semantic_threshold := by
  refine ⟨⟨by decide, ?_⟩, ⟨by decide, ?_⟩, by decide, by decide, by decide, by decide⟩
  · intro S' h'
    have h0 : errVal zeroSol = 0 := by decide
    have h1 := errVal_nonneg h'
    omega
  · intro S' _
    exact scoreVal_le_of_all S' (by decide) (by decide)


/-! ## Supporting lemmas: SafePeel -/

/-- A candidate returned by the reference-match loop is flagged as a
reference match and uses a payment not yet in `matched_ids`. -/
theorem tryReferenceMatchGo_sound (invoice : Txn)
    (payment_index : List (String × Txn)) (matched_ids : List String) :
    ∀ (refs : List String) (c : CandidateMatch),
      tryReferenceMatchGo invoice payment_index matched_ids refs = some c →
      c.reference_match = true ∧ c.payment.id ∉ matched_ids := by
  intro refs
  induction refs with
  | nil => intro c h; simp [tryReferenceMatchGo] at h
  | cons r rest ih =>
    intro c h
    simp only [tryReferenceMatchGo] at h
    split at h
    · split at h
      · rename_i hcond
        cases h
        exact ⟨rfl, hcond.1⟩
      · exact ih c h
    · exact ih c h

/-- Lifting of `tryReferenceMatchGo_sound` to `_try_reference_match`. -/
theorem tryReferenceMatch_sound {invoice : Txn}
    {payment_index : List (String × Txn)} {matched_ids : List String}
    {c : CandidateMatch}
    (h : tryReferenceMatch invoice payment_index matched_ids = some c) :
    c.reference_match = true ∧ c.payment.id ∉ matched_ids :=
  tryReferenceMatchGo_sound invoice payment_index matched_ids _ c h

/-- A candidate returned by `_try_unique_amount_match` is a
non-reference match on an unused payment of exactly the invoice's
amount, that amount occurs exactly twice in the window, and the text
similarity is the computed score, at or above the threshold. -/
theorem tryUniqueAmountMatch_sound {fz : Fuzz} {s : Settings} {invoice : Txn}
    {payments : List Txn} {amount_counts : Int → Nat}
    {matched_ids : List String} {c : CandidateMatch}
    (h : tryUniqueAmountMatch fz s invoice payments amount_counts
      matched_ids = some c) :
    c.invoice = invoice ∧ c.reference_match = false ∧
    c.payment.amount_cents = invoice.amount_cents ∧
    c.payment.id ∉ matched_ids ∧
    amount_counts invoice.amount_cents = 2 ∧
    c.text_similarity = calculateTextSimilarity fz invoice c.payment ∧
    s.text_similarity_threshold ≤ c.text_similarity := by
  simp only [tryUniqueAmountMatch] at h
  split at h
  · exact absurd h (by simp)
  · rename_i hcount
    split at h
    · rename_i payment heq
      split at h
      · exact absurd h (by simp)
      · rename_i hsim
        cases h
        have hpm : payment ∈ (amountIndexLookup payments
            invoice.amount_cents).filter
            (fun t => decide (t.id ∉ matched_ids)) := by
          rw [heq]; exact List.mem_singleton_self payment
        obtain ⟨hidx, hdec⟩ := List.mem_filter.mp hpm
        have hnotm : payment.id ∉ matched_ids := of_decide_eq_true hdec
        have hamt : payment.amount_cents = invoice.amount_cents := by
          unfold amountIndexLookup at hidx
          exact of_decide_eq_true (List.mem_filter.mp hidx).2
        exact ⟨rfl, rfl, hamt, hnotm, not_not.mp hcount, rfl,
          le_of_not_lt hsim⟩
    · exact absurd h (by simp)

/-- Invariant of the `SafePeelingEngine.process` loop: every emitted
pair records as gap the difference of its totals; every
medium-confidence (unique-amount) pair has gap 0, a window count of
exactly 2 for its amount, and a semantic score at or above the
threshold; and no payment id is used by two pairs. -/
theorem safePeelGo_sound (fz : Fuzz) (s : Settings) (payments : List Txn)
    (payment_by_reference : List (String × Txn)) (amount_counts : Int → Nat)
    (reference_date : Int) :
    ∀ (invoices : List Txn) (pairs : List MatchedPair) (mi mp : List String),
      (∀ p ∈ pairs,
        p.gap_cents = p.total_invoice_cents - p.total_payment_cents ∧
        (p.confidence = MatchConfidence.medium →
          p.gap_cents = 0 ∧ amount_counts p.total_invoice_cents = 2 ∧
          s.text_similarity_threshold ≤ p.semantic_score)) →
      ((pairs.map MatchedPair.payment_ids).flatten).Nodup →
      (∀ x ∈ (pairs.map MatchedPair.payment_ids).flatten, x ∈ mp) →
      (∀ p ∈ (safePeelGo fz s payments payment_by_reference amount_counts
          reference_date invoices pairs mi mp).1,
        p.gap_cents = p.total_invoice_cents - p.total_payment_cents ∧
        (p.confidence = MatchConfidence.medium →
          p.gap_cents = 0 ∧ amount_counts p.total_invoice_cents = 2 ∧
          s.text_similarity_threshold ≤ p.semantic_score)) ∧
      (((safePeelGo fz s payments payment_by_reference amount_counts
          reference_date invoices pairs mi mp).1.map
        MatchedPair.payment_ids).flatten).Nodup := by
  intro invoices
  induction invoices with
  | nil =>
    intro pairs mi mp hP hN hS
    exact ⟨by simpa [safePeelGo] using hP, by simpa [safePeelGo] using hN⟩
  | cons invoice rest ih =>
    intro pairs mi mp hP hN hS
    simp only [safePeelGo]
    split
    · exact ih pairs mi mp hP hN hS
    · cases hm1 : tryReferenceMatch invoice payment_by_reference mp with
      | some c =>
        obtain ⟨href, hunused⟩ := tryReferenceMatch_sound hm1
        have hflat : (((pairs ++ [peelPair s invoice c reference_date]).map
            MatchedPair.payment_ids).flatten) =
            ((pairs.map MatchedPair.payment_ids).flatten) ++
              [c.payment.id] := by
          simp [peelPair]
        refine ih (pairs ++ [peelPair s invoice c reference_date])
          (mi ++ [invoice.id]) (mp ++ [c.payment.id]) ?_ ?_ ?_
        · intro p hp
          rcases List.mem_append.mp hp with hp | hp
          · exact hP p hp
          · rw [List.mem_singleton.mp hp]
            refine ⟨by simp [peelPair], ?_⟩
            intro hconf
            exfalso
            simp [peelPair, href] at hconf
        · rw [hflat]
          refine List.Nodup.append hN (List.nodup_singleton _) ?_
          intro a ha hb
          rw [List.mem_singleton] at hb
          subst hb
          exact hunused (hS _ ha)
        · intro x hx
          rw [hflat] at hx
          rcases List.mem_append.mp hx with hx | hx
          · exact List.mem_append.mpr (Or.inl (hS x hx))
          · exact List.mem_append.mpr (Or.inr hx)
      | none =>
        cases hm2 : tryUniqueAmountMatch fz s invoice payments amount_counts
            mp with
        | none => exact ih pairs mi mp hP hN hS
        | some c =>
          obtain ⟨hinv, hrefF, hamt, hunused, hcnt, hsimeq, hθ⟩ :=
            tryUniqueAmountMatch_sound hm2
          have hflat : (((pairs ++ [peelPair s invoice c reference_date]).map
              MatchedPair.payment_ids).flatten) =
              ((pairs.map MatchedPair.payment_ids).flatten) ++
                [c.payment.id] := by
            simp [peelPair]
          refine ih (pairs ++ [peelPair s invoice c reference_date])
            (mi ++ [invoice.id]) (mp ++ [c.payment.id]) ?_ ?_ ?_
          · intro p hp
            rcases List.mem_append.mp hp with hp | hp
            · exact hP p hp
            · rw [List.mem_singleton.mp hp]
              refine ⟨by simp [peelPair], ?_⟩
              intro hconf
              refine ⟨?_, ?_, ?_⟩
              · simp only [peelPair]
                omega
              · simpa [peelPair] using hcnt
              · simpa [peelPair] using hθ
          · rw [hflat]
            refine List.Nodup.append hN (List.nodup_singleton _) ?_
            intro a ha hb
            rw [List.mem_singleton] at hb
            subst hb
            exact hunused (hS _ ha)
          · intro x hx
            rw [hflat] at hx
            rcases List.mem_append.mp hx with hx | hx
            · exact List.mem_append.mpr (Or.inl (hS x hx))
            · exact List.mem_append.mpr (Or.inr hx)

/-! ## Claim C7 -/

/-- C7 (amended).  Every medium-confidence pair `SafePeelingEngine.process`
emits comes from the unique-amount rule and therefore has `gap_cents = 0`,
a window count of exactly 2 for its amount, and a semantic score AT OR
ABOVE `text_similarity_threshold` (the code commits at equality:
`if text_sim < self.text_threshold: return None`); no payment is used by
two pairs. -/
theorem c7_unique_amount_conditions (fz : Fuzz) (s : Settings)
    (invoices payments : List Txn) (reference_date : Int) :
    (∀ pair ∈ (safePeelProcess fz s invoices payments
        reference_date).matched_pairs,
      pair.confidence = MatchConfidence.medium →
        pair.gap_cents = 0 ∧
        countAmountsInWindow s (invoices ++ payments) reference_date
          pair.total_invoice_cents = 2 ∧
        s.text_similarity_threshold ≤ pair.semantic_score) ∧
    (((safePeelProcess fz s invoices payments
        reference_date).matched_pairs.map
      MatchedPair.payment_ids).flatten).Nodup := by
  have h := safePeelGo_sound fz s payments (buildReferenceIndex payments)
    (countAmountsInWindow s (invoices ++ payments) reference_date)
    reference_date invoices [] [] [] (by simp) (by simp) (by simp)
  constructor
  · intro pair hp
    exact (h.1 pair (by simpa [safePeelProcess] using hp)).2
  · simpa [safePeelProcess] using h.2

/-- C7 witness: on `c7Inv`/`c7Pay` the engine emits exactly the
medium-confidence pair `c7ThePair`, which satisfies all the conditions. -/
theorem c7_unique_amount_conditions_witness :
    c7ThePair ∈ (safePeelProcess c7Fuzz defaultSettings [c7Inv] [c7Pay]
      0).matched_pairs ∧
    c7ThePair.confidence = MatchConfidence.medium ∧
    (c7ThePair.gap_cents = 0 ∧
      countAmountsInWindow defaultSettings ([c7Inv] ++ [c7Pay]) 0
        c7ThePair.total_invoice_cents = 2 ∧
      defaultSettings.text_similarity_threshold ≤ c7ThePair.semantic_score) ∧
    (((safePeelProcess c7Fuzz defaultSettings [c7Inv] [c7Pay]
        0).matched_pairs.map MatchedPair.payment_ids).flatten).Nodup :=
  ⟨by decide, by decide,
   (c7_unique_amount_conditions c7Fuzz defaultSettings [c7Inv] [c7Pay] 0).1
     c7ThePair (by decide) (by decide),
   (c7_unique_amount_conditions c7Fuzz defaultSettings [c7Inv] [c7Pay] 0).2⟩

/-- C7 counterexample to the spec's strict inequality: on
`c7Inv`/`c7Pay` the text similarity is exactly the 0.7 threshold — it
does not EXCEED the threshold — and the pair is committed anyway. -/
theorem c7_threshold_counterexample :
    (safePeelProcess c7Fuzz defaultSettings [c7Inv] [c7Pay]
      0).matched_pairs = [c7ThePair] ∧
    c7ThePair.confidence = MatchConfidence.medium ∧
    c7ThePair.semantic_score = defaultSettings.text_similarity_threshold ∧
    ¬ defaultSettings.text_similarity_threshold < c7ThePair.semantic_score :=
  ⟨by decide, by decide, by decide, by decide⟩

/-! ## Claim C10 -/

/-- C10.  When no text field of an invoice/payment pair is comparable —
names not both present, descriptions not both non-empty, tax ids not
both present — `_calculate_text_similarity` returns `0.0`, and for any
positive threshold `_try_unique_amount_match` never returns a candidate
using that payment. -/
theorem c10_no_text_no_commit (fz : Fuzz) (s : Settings)
    (invoice payment : Txn) (payments : List Txn)
    (amount_counts : Int → Nat) (matched_ids : List String)
    (hname : (truthy invoice.counterparty_name &&
      truthy payment.counterparty_name) = false)
    (hdesc : (invoice.description != "" && payment.description != "") = false)
    (hrfc : (truthy invoice.counterparty_rfc &&
      truthy payment.counterparty_rfc) = false)
    (hthr : 0 < s.text_similarity_threshold) :
    calculateTextSimilarity fz invoice payment = 0 ∧
    ∀ c, tryUniqueAmountMatch fz s invoice payments amount_counts
        matched_ids = some c → c.payment ≠ payment := by
  have hsim : calculateTextSimilarity fz invoice payment = 0 := by
    simp [calculateTextSimilarity, hname, hdesc, hrfc]
  refine ⟨hsim, ?_⟩
  intro c hc hpay
  obtain ⟨-, -, -, -, -, hsimeq, hθ⟩ := tryUniqueAmountMatch_sound hc
  rw [hpay, hsim] at hsimeq
  rw [hsimeq] at hθ
  exact absurd hθ (not_le.mpr hthr)

/-- C10 witness: on the textless `c10Inv`/`c10Pay` the similarity is 0
and the unique-amount rule (window count 2, single free candidate)
returns no match at the default 0.7 threshold. -/
theorem c10_no_text_no_commit_witness :
    calculateTextSimilarity c7Fuzz c10Inv c10Pay = 0 ∧
    tryUniqueAmountMatch c7Fuzz defaultSettings c10Inv [c10Pay]
      (countAmountsInWindow defaultSettings ([c10Inv] ++ [c10Pay]) 0)
      [] = none :=
  ⟨(c10_no_text_no_commit c7Fuzz defaultSettings c10Inv c10Pay [c10Pay]
      (countAmountsInWindow defaultSettings ([c10Inv] ++ [c10Pay]) 0) []
      (by decide) (by decide) (by decide) (by decide)).1,
   by decide⟩

/-! ## Claim C2 -/

/-- C2 (amended).  Pairs emitted by SafePeel do record
`gap_cents = total_invoice_cents − total_payment_cents`, but pairs
emitted by the solver's `_solution_to_result` record as gap either the
cluster-wide `gamma_cents` or a converted remainder in
`(0, max_abs_delta_cents]` — not the difference of the pair's own
totals. -/
theorem c2_gap_characterization :
    (∀ (fz : Fuzz) (s : Settings) (invoices payments : List Txn)
        (reference_date : Int),
      ∀ pair ∈ (safePeelProcess fz s invoices payments
          reference_date).matched_pairs,
        pair.gap_cents = pair.total_invoice_cents -
          pair.total_payment_cents) ∧
    (∀ (s : Settings) (cluster_id : String) (sol : SolverSolution)
        (invMap payMap : List (String × Txn)),
      ∀ pair ∈ (solutionToResult s cluster_id sol invMap
          payMap).matched_pairs,
        pair.gap_cents = sol.gamma_cents ∨
          (0 < pair.gap_cents ∧ pair.gap_cents ≤ s.max_abs_delta_cents)) := by
  constructor
  · intro fz s invoices payments reference_date pair hp
    have h := safePeelGo_sound fz s payments (buildReferenceIndex payments)
      (countAmountsInWindow s (invoices ++ payments) reference_date)
      reference_date invoices [] [] [] (by simp) (by simp) (by simp)
    exact (h.1 pair (by simpa [safePeelProcess] using hp)).1
  · intro s cluster_id sol invMap payMap pair hp
    exact solutionToResultGo_gap s sol invMap payMap sol.«matches»
      [] [] [] [] (by simp) pair (by simpa [solutionToResult] using hp)

/-- C2 witness: the SafePeel pair on `c7Inv`/`c7Pay` satisfies the gap
identity, and the solver pair on `c2Cluster` carries `gamma_cents` or a
small converted remainder as its gap. -/
theorem c2_gap_characterization_witness :
    c7ThePair ∈ (safePeelProcess c7Fuzz defaultSettings [c7Inv] [c7Pay]
      0).matched_pairs ∧
    c7ThePair.gap_cents = c7ThePair.total_invoice_cents -
      c7ThePair.total_payment_cents ∧
    c2Pair ∈ (solutionToResult defaultSettings "c2" c2Sol
      (buildIdMap c2Cluster.invoices)
      (buildIdMap c2Cluster.payments)).matched_pairs ∧
    (c2Pair.gap_cents = c2Sol.gamma_cents ∨
      (0 < c2Pair.gap_cents ∧
        c2Pair.gap_cents ≤ defaultSettings.max_abs_delta_cents)) :=
  ⟨by decide,
   c2_gap_characterization.1 c7Fuzz defaultSettings [c7Inv] [c7Pay] 0
     c7ThePair (by decide),
   by decide,
   c2_gap_characterization.2 defaultSettings "c2" c2Sol
     (buildIdMap c2Cluster.invoices) (buildIdMap c2Cluster.payments)
     c2Pair (by decide)⟩

/-- C2 counterexample: on `c2Cluster` (invoice 1.00; payments 0.60 and
0.40, only the 0.60 one connected by an edge) legitimate phase
optima exist under which `solve_cluster` emits a pair with
`total_invoice_cents = 100`, `total_payment_cents = 60` but
`gap_cents = 0` — the claimed identity `gap = invoices − payments`
fails on the solver's pairs. -/
theorem c2_gap_counterexample :
    Phase1Optimal defaultSettings (clusterMaxDelta defaultSettings c2Cluster)
      (buildIdMap c2Cluster.invoices) (buildIdMap c2Cluster.payments)
      zeroSol ∧
    Phase2Optimal defaultSettings (clusterMaxDelta defaultSettings c2Cluster)
      (buildIdMap c2Cluster.invoices) (buildIdMap c2Cluster.payments)
      0 0 zeroSol ∧
    Phase3Optimal defaultSettings (clusterMaxDelta defaultSettings c2Cluster)
      (buildIdMap c2Cluster.invoices) (buildIdMap c2Cluster.payments)
      (buildEdgeWeights c2Cluster.edges) 0 0 (some 0) c2Phase3 ∧
    (solveCluster defaultSettings c2Cluster (some zeroSol) (some zeroSol)
      (some c2Phase3)).matched_pairs.map
        (fun p => (p.gap_cents, p.total_invoice_cents,
          p.total_payment_cents)) = [(0, 100, 60)] ∧
    ¬ ∀ p ∈ (solveCluster defaultSettings c2Cluster (some zeroSol)
        (some zeroSol) (some c2Phase3)).matched_pairs,
      p.gap_cents = p.total_invoice_cents - p.total_payment_cents := by
  refine ⟨⟨by decide, ?_⟩, ⟨by decide, ?_⟩, ⟨by decide, ?_⟩,
    by decide, by decide⟩
  · intro S' h'
    have h0 : errVal zeroSol = 0 := by decide
    have h1 := errVal_nonneg h'
    omega
  · intro S' h'
    have h0 : cardVal (buildIdMap c2Cluster.invoices) zeroSol = 0 := by decide
    have h1 := cardVal_nonneg (buildIdMap c2Cluster.invoices) S'
    omega
  · intro S' h'
    exact scoreVal_le_of_all S' (by decide) (by decide)

end Recon
